import Mathlib

/-!
# Verification of the per-device state machine of `device.cpp`

This file contains a shallow embedding of the device control core
(`src/device.cpp` of the deconz-rest-plugin repository): the hierarchical
state machine that drives a Zigbee device through discovery, description
matching, binding verification and attribute polling.

The embedding follows the C++ source function by function:

* `DEV_InitStateHandler`, `DEV_NodeDescriptorStateHandler`,
  `DEV_ActiveEndpointsStateHandler`, `DEV_SimpleDescriptorStateHandler`,
  `DEV_BasicClusterStateHandler`, `DEV_GetDeviceDescriptionHandler`,
  `DEV_IdleStateHandler`, `DEV_DeadStateHandler` (top-level machine),
* `DEV_BindingHandler`, `DEV_BindingTableVerifyHandler` (level-1 machine),
* `DEV_PollIdleStateHandler`, `DEV_PollNextStateHandler`,
  `DEV_PollBusyStateHandler` (level-2 machine),
* `DevicePrivate::setState`, `Device::handleEvent`, `Device::timerEvent`,
  `Device::reachable`, `Device::lastAwakeMs`, `DEV_RemoveDevice`.

External collaborators (APS controller, node registry, DDF engine,
sub-device resource store) are modelled as an environment `Env` plus a
per-step `Choice` record carrying the outcome of each external call made
during that step (enqueue success, APS request ids, the current monotonic
time, the poll-item scan result).  Machine integers are modelled as `Nat`;
the only bit-level operation the code performs on them is the `&&&` mask
test in `DEV_InitStateHandler`, reproduced verbatim.

Side effects that do not touch the `Device`/`DevicePrivate` state
(`DBG_Printf` logging, `DEV_CheckItemChanges`, which mutates only
external sub-device resources) are omitted.
-/

namespace DeconzDevice

/-- `DEV_StateLevel`: the three state-machine levels (`StateLevel0`,
`StateLevel1 = STATE_LEVEL_BINDING`, `StateLevel2 = STATE_LEVEL_POLL`). -/
inductive Lvl
  | L0 | L1 | L2
deriving DecidableEq

/-- Numeric value of a level, as stored in an `Event`'s `num` field. -/
def Lvl.toNat : Lvl → Nat
  | .L0 => 0
  | .L1 => 1
  | .L2 => 2

/-- Decode a level from an event's numeric payload
(`Q_ASSERT(event.num() < StateLevelMax)` in the source). -/
def decodeLvl : Nat → Option Lvl
  | 0 => some .L0
  | 1 => some .L1
  | 2 => some .L2
  | _ => none

/-- The state-handler function pointers of `device.cpp`, as a closed set of
tags (each tag stands for one `DEV_*StateHandler` / `DEV_*Handler`). -/
inductive Handler
  | init                  -- DEV_InitStateHandler
  | nodeDescriptor        -- DEV_NodeDescriptorStateHandler
  | activeEndpoints       -- DEV_ActiveEndpointsStateHandler
  | simpleDescriptor      -- DEV_SimpleDescriptorStateHandler
  | basicCluster          -- DEV_BasicClusterStateHandler
  | getDeviceDescription  -- DEV_GetDeviceDescriptionHandler
  | idle                  -- DEV_IdleStateHandler
  | dead                  -- DEV_DeadStateHandler
  | binding               -- DEV_BindingHandler
  | bindingTableVerify    -- DEV_BindingTableVerifyHandler
  | pollIdle              -- DEV_PollIdleStateHandler
  | pollNext              -- DEV_PollNextStateHandler
  | pollBusy              -- DEV_PollBusyStateHandler
deriving DecidableEq

/-- The event kinds (`event.what()` string constants) observed by
`device.cpp`.  `otherAttr` stands for any attribute-change notification the
handlers do not inspect by name. -/
inductive EventKind
  | stateEnter            -- REventStateEnter
  | stateLeave            -- REventStateLeave
  | stateTimeout          -- REventStateTimeout
  | poll                  -- REventPoll
  | awake                 -- REventAwake
  | apsConfirm            -- REventApsConfirm
  | nodeDescriptor        -- REventNodeDescriptor
  | activeEndpoints       -- REventActiveEndpoints
  | simpleDescriptor      -- REventSimpleDescriptor
  | bindingTable          -- REventBindingTable
  | bindingTick           -- REventBindingTick
  | ddfInitRequest        -- REventDDFInitRequest
  | ddfInitResponse       -- REventDDFInitResponse
  | ddfReload             -- REventDDFReload
  | attrManufacturerName  -- RAttrManufacturerName
  | attrModelId           -- RAttrModelId
  | configReachable       -- RConfigReachable
  | stateReachable        -- RStateReachable
  | stateLastUpdated      -- RStateLastUpdated
  | attrLastSeen          -- RAttrLastSeen
  | otherAttr
deriving DecidableEq

/-- An `Event`: kind tag, numeric payload (`event.num()`, used as the level
of `StateEnter`/`StateLeave`/`StateTimeout`, the matched flag of
`DDFInitResponse` and the ZDP status of `BindingTable`) and, for
`REventApsConfirm`, the APS request id and status extracted by
`EventApsConfirmId` / `EventApsConfirmStatus`.  The model runs a single
device, so the `deviceKey`/`resource` fields of the C++ `Event` class are
dropped. -/
structure Event where
  what : EventKind
  num : Nat := 0
  apsId : Nat := 0
  apsStatus : Nat := 0
deriving DecidableEq

/-- `constexpr int MinMacPollRxOn = 8000`. -/
def MinMacPollRxOn : Nat := 8000

/-- `constexpr int MaxPollItemRetries = 3`. -/
def MaxPollItemRetries : Nat := 3

/-- A `PollItem`: the resource/item pair is abbreviated to a numeric id,
`readParameters` (a `QVariant` descriptor) to an opaque numeric key used to
look up a read function.  `size_t retry = 0` on construction. -/
structure PollItem where
  itemId : Nat
  readParameters : Nat
  retry : Nat := 0
deriving DecidableEq

/-- `struct BindingContext`.  The `QElapsedTimer bindingVerify` is modelled
by a validity flag (`isValid()`) plus the millisecond timestamp of its last
`start()`. -/
structure BindingContext where
  bindingVerifyValid : Bool := false
  bindingVerifyStart : Nat := 0
  bindingIter : Nat := 0
  mgmtBindSupported : Bool := false
deriving DecidableEq

/-- `ZDP_Result`: outcome of a `ZDP_*Req` call. -/
structure ZdpResult where
  isEnqueued : Bool := false
  apsReqId : Nat := 0
  sequenceNumber : Nat := 0
deriving DecidableEq

/-- `DA_ReadResult`: outcome of a read request (`DEV_ZclRead` or a
`DA_GetReadFunction` callable). -/
structure ReadResult where
  isEnqueued : Bool := false
  apsReqId : Nat := 0
  sequenceNumber : Nat := 0
deriving DecidableEq

/-- `deCONZ::NodeDescriptor`, reduced to what `device.cpp` reads: whether it
is null and the `receiverOnWhenIdle` flag.  `none` stands for
`nodeDescriptor().isNull()`. -/
structure NodeDescr where
  receiverOnWhenIdle : Bool
deriving DecidableEq

/-- One `deCONZ::SimpleDescriptor`: endpoint, device id, server (in-)
cluster ids. -/
structure SimpleDescr where
  endpoint : Nat
  deviceId : Nat
  inClusters : List Nat
deriving DecidableEq

/-- The `deCONZ::Node` data `device.cpp` reads through `d->node`. -/
structure ZNode where
  nwk : Nat
  ext : Nat
  nodeDescr : Option NodeDescr
  endpoints : List Nat
  simpleDescrs : List SimpleDescr
  bindingTableSize : Nat
deriving DecidableEq

/-- `copySimpleDescriptor(ep, &sd)`: the node's simple descriptor for an
endpoint, or `none` when the call fails. -/
def ZNode.simpleDescrFor (n : ZNode) (ep : Nat) : Option SimpleDescr :=
  n.simpleDescrs.find? (fun sd => sd.endpoint = ep)

/-- The `DevicePrivate` state (plus the `Device`-owned resource items the
handlers read and write).  `s0/s1/s2` are the `state[StateLevelMax]` handler
slots, `t0/t1/t2` the armed flags of the per-level single-shot timers.  The
`QElapsedTimer awake` is a validity flag plus the timestamp of its last
`start()`.  `attrExt`/`attrNwk` are the `RAttrExtAddress`/`RAttrNwkAddress`
item values, `itemReachable`/`itemSleeper` the `RStateReachable`/
`RAttrSleeper` bools, and `manuNameSet`/`modelIdSet` record whether the
`RAttrManufacturerName`/`RAttrModelId` items carry a valid `lastSet`. -/
structure DeviceState where
  deviceKey : Nat
  node : Option ZNode := none
  s0 : Option Handler := none
  s1 : Option Handler := none
  s2 : Option Handler := none
  t0 : Bool := false
  t1 : Bool := false
  t2 : Bool := false
  awakeValid : Bool := false
  awakeStart : Nat := 0
  binding : BindingContext := {}
  pollItems : List PollItem := []
  zdpResult : ZdpResult := {}
  readResult : ReadResult := {}
  attrExt : Nat := 0
  attrNwk : Nat := 0
  itemReachable : Bool := false
  itemSleeper : Bool := false
  manuNameSet : Bool := false
  modelIdSet : Bool := false
deriving DecidableEq

/-- Read a handler slot. -/
def getSlot (s : DeviceState) : Lvl → Option Handler
  | .L0 => s.s0
  | .L1 => s.s1
  | .L2 => s.s2

/-- Write a handler slot. -/
def setSlot (s : DeviceState) : Lvl → Option Handler → DeviceState
  | .L0, h => { s with s0 := h }
  | .L1, h => { s with s1 := h }
  | .L2, h => { s with s2 := h }

/-- `DevicePrivate::startStateTimer` (the interval is not tracked; only the
armed flag matters to the handlers). -/
def startStateTimer (s : DeviceState) : Lvl → DeviceState
  | .L0 => { s with t0 := true }
  | .L1 => { s with t1 := true }
  | .L2 => { s with t2 := true }

/-- `DevicePrivate::stopStateTimer`. -/
def stopStateTimer (s : DeviceState) : Lvl → DeviceState
  | .L0 => { s with t0 := false }
  | .L1 => { s with t1 := false }
  | .L2 => { s with t2 := false }

/-- Armed flag of a level's timer. -/
def timerArmed (s : DeviceState) : Lvl → Bool
  | .L0 => s.t0
  | .L1 => s.t1
  | .L2 => s.t2

/-- `Device::lastAwakeMs`: elapsed ms since the last `Awake`, or `8640000`
when the `awake` timer was never started. -/
def lastAwakeMs (s : DeviceState) (now : Nat) : Nat :=
  if s.awakeValid then now - s.awakeStart else 8640000

/-- `Device::reachable`. -/
def reachable (s : DeviceState) (now : Nat) : Bool :=
  if lastAwakeMs s now < MinMacPollRxOn then
    true
  else if (s.node.bind (·.nodeDescr)).elim false (·.receiverOnWhenIdle) then
    s.itemReachable
  else if !s.itemSleeper then
    s.itemReachable
  else
    false

/-- The static environment: the core node registry (`DEV_GetCoreNode`) and
the read-function table (`DA_GetReadFunction`, keyed by the
`readParameters` descriptor; `none` means no function exists). -/
structure Env where
  coreNode : Nat → Option ZNode
  readFn : Nat → Option Unit

/-- Per-step outcomes of external calls: the monotonic clock, the result of
ZDP request enqueues, of ZCL-read / poll-read-function enqueues, of the
sub-device scans of `DEV_FillItemFromSubdevices`, and the item list
produced by `DEV_GetPollItems` (pairs of item id and `readParameters`
key; the scan constructs every `PollItem` with `retry = 0`). -/
structure Choice where
  now : Nat := 0
  zdpEnqueued : Bool := true
  zdpReqId : Nat := 0
  zdpSeq : Nat := 0
  readEnqueued : Bool := true
  readReqId : Nat := 0
  readSeq : Nat := 0
  fillManu : Bool := false
  fillModel : Bool := false
  pollScan : List (Nat × Nat) := []

/-- Result of running one handler: the new device state, the events it
pushed onto the process mailbox (`emit eventNotify` inside
`DevicePrivate::setState` and `DEV_EnqueueEvent`), in order, and the number
of ZDP requests it issued (`ZDP_NodeDescriptorReq` /
`ZDP_ActiveEndpointsReq` / `ZDP_SimpleDescriptorReq`). -/
structure HOut where
  st : DeviceState
  out : List Event := []
  zdp : Nat := 0

/-- The `StateEnter` event emitted by `setState` for a level. -/
def mkEnter (lvl : Lvl) : Event := { what := .stateEnter, num := lvl.toNat }

/-- The `StateTimeout` event synthesized by `Device::timerEvent`. -/
def mkTimeout (lvl : Lvl) : Event := { what := .stateTimeout, num := lvl.toNat }

/-- Synchronous `StateLeave` behaviour of the handlers installed at the
sub-machine levels: `DEV_PollNextStateHandler` and
`DEV_PollBusyStateHandler` stop the `STATE_LEVEL_POLL` timer; the binding
handlers and `DEV_PollIdleStateHandler` do nothing. -/
def subLeave (h : Handler) (s : DeviceState) : DeviceState :=
  match h with
  | .pollNext | .pollBusy => stopStateTimer s .L2
  | _ => s

/-- Synchronous `StateLeave` behaviour of `DEV_IdleStateHandler`:
`setState(nullptr, STATE_LEVEL_BINDING); setState(nullptr,
STATE_LEVEL_POLL)`.  Each inner `setState` first delivers `StateLeave` to
the outgoing sub-handler and clears the slot; setting a slot to null emits
no `StateEnter`. -/
def idleLeave (s : DeviceState) : DeviceState :=
  let s := match s.s1 with
    | some h => setSlot (subLeave h s) .L1 none
    | none => s
  match s.s2 with
  | some h => setSlot (subLeave h s) .L2 none
  | none => s

/-- Synchronous `StateLeave` behaviour of every handler (the invocation
`state[level](q, Event(..., REventStateLeave, level, ...))` inside
`DevicePrivate::setState`).  The top-level verification handlers, `Init`,
`GetDeviceDescription` and `Dead` have no `StateLeave` branch. -/
def leaveEffect (h : Handler) (s : DeviceState) : DeviceState :=
  match h with
  | .idle => idleLeave s
  | .pollNext | .pollBusy => stopStateTimer s .L2
  | _ => s

/-- `DevicePrivate::setState`.  A no-op when the new handler equals the
installed one; otherwise the outgoing handler is synchronously given
`StateLeave`, the slot is updated, and (for a non-null incoming handler) a
`StateEnter` event is emitted through the mailbox. -/
def setState (s : DeviceState) (newState : Option Handler) (lvl : Lvl) :
    DeviceState × List Event :=
  if getSlot s lvl = newState then
    (s, [])
  else
    let s1 := match getSlot s lvl with
      | some h => leaveEffect h s
      | none => s
    let s2 := setSlot s1 lvl newState
    match newState with
    | some _ => (s2, [mkEnter lvl])
    | none => (s2, [])

/-- A handler epilogue `d->setState(h, level); return` (possibly after
`DEV_EnqueueEvent`s, collected in `extra`, and after issuing `zdp` ZDP
requests): state updated by `setState`, whose `StateEnter` emission
precedes the extra events in the mailbox. -/
def toState (s : DeviceState) (h : Handler) (lvl : Lvl)
    (extra : List Event := []) (zdp : Nat := 0) : HOut :=
  let (s, o) := setState s (some h) lvl
  { st := s, out := o ++ extra, zdp := zdp }

/-- `deCONZ::ZdpSuccess`. -/
def ZdpSuccess : Nat := 0x00

/-- `deCONZ::ZdpNotSupported`. -/
def ZdpNotSupported : Nat := 0x84

/-- `deCONZ::ApsSuccessStatus`. -/
def ApsSuccessStatus : Nat := 0x00

/-- `DEV_BindingHandler` (level-1 `BindingIdle` state).  Note that the
`REventBindingTable` branch does not return: after recording
`mgmtBindSupported` it falls through to the transition into
`DEV_BindingTableVerifyHandler`. -/
def DEV_BindingHandler (c : Choice) (e : Event) (s : DeviceState) : HOut :=
  -- if (event.what() == REventStateEnter) { DBG_Printf(...) } : log only
  if e.what = .poll ∨ e.what = .awake then
    if ¬s.binding.bindingVerifyValid ∨
        c.now - s.binding.bindingVerifyStart > 1000 * 60 * 5 then
      -- DBG_Printf("DEV Binding verify bindings ...")
      let s := { s with binding := { s.binding with bindingIter := 0 } }
      toState s .bindingTableVerify .L1 [{ what := .bindingTick }]
    else
      { st := s }
  else if e.what = .bindingTable then
    let s :=
      if e.num = ZdpSuccess then
        { s with binding := { s.binding with mgmtBindSupported := true } }
      else if e.num = ZdpNotSupported then
        { s with binding := { s.binding with mgmtBindSupported := false } }
      else s
    let s := { s with binding := { s.binding with bindingIter := 0 } }
    toState s .bindingTableVerify .L1 [{ what := .bindingTick }]
  else
    { st := s }

/-- `DEV_BindingTableVerifyHandler` (level-1 `BindingTableVerify` state).
`device->node()` is dereferenced unconditionally; a device in `Idle` always
carries a node, so the `none` branch is unreachable and modelled as a
no-op. -/
def DEV_BindingTableVerifyHandler (c : Choice) (e : Event) (s : DeviceState) :
    HOut :=
  if e.what ≠ .bindingTick then
    { st := s }
  else
    match s.node with
    | none => { st := s }
    | some n =>
      if s.binding.bindingIter ≥ n.bindingTableSize then
        -- d->binding.bindingVerify.start(); back to BindingIdle
        let s := { s with binding :=
          { s.binding with bindingVerifyValid := true,
                           bindingVerifyStart := c.now } }
        toState s .binding .L1
      else
        -- DBG_Printf the binding at bindingIter, advance, re-queue a tick
        let s := { s with binding :=
          { s.binding with bindingIter := s.binding.bindingIter + 1 } }
        { st := s, out := [{ what := .bindingTick }] }

/-- `DEV_PollIdleStateHandler` (level-2 `PollIdle` state).  On `Poll` the
queue is overwritten with the freshly scanned items of
`DEV_GetPollItems` (each constructed with `retry = 0`); if non-empty the
machine moves to `PollNext`. -/
def DEV_PollIdleStateHandler (c : Choice) (e : Event) (s : DeviceState) :
    HOut :=
  if e.what = .poll then
    let scanned : List PollItem :=
      c.pollScan.map (fun p => { itemId := p.1, readParameters := p.2 })
    let s := { s with pollItems := scanned }
    if s.pollItems ≠ [] then
      toState s .pollNext .L2
    else
      { st := s }
  else
    { st := s }

/-- `DEV_PollNextStateHandler` (level-2 `PollNext` state).  The head of the
queue is the `back()` of the source's vector.  When no read function exists
the item is popped while `poll` still references the popped slot; the
subsequent `poll.retry++` and cap test act on that dead slot, so the cap
test compares the popped item's incremented retry and, when it reaches the
cap, pops a further item. -/
def DEV_PollNextStateHandler (env : Env) (c : Choice) (e : Event)
    (s : DeviceState) : HOut :=
  if e.what = .stateEnter ∨ e.what = .stateTimeout then
    -- Q_ASSERT(event.num() == STATE_LEVEL_POLL) : debug-only
    let s := if reachable s c.now then s else { s with pollItems := [] }
    match s.pollItems with
    | [] => toState s .pollIdle .L2
    | poll :: rest =>
      let fn := env.readFn poll.readParameters
      -- d->readResult = { };
      let (s, popped) :=
        match fn with
        | some _ =>
          ({ s with readResult :=
              { isEnqueued := c.readEnqueued, apsReqId := c.readReqId,
                sequenceNumber := c.readSeq } }, false)
        | none =>
          -- DBG_Printf("no read function"); pop_back()
          ({ s with readResult := {}, pollItems := rest }, true)
      if s.readResult.isEnqueued then
        toState s .pollBusy .L2
      else
        if popped then
          -- poll.retry++ on the popped slot; cap test may pop again
          let s :=
            if poll.retry + 1 ≥ MaxPollItemRetries then
              { s with pollItems := s.pollItems.tail }
            else s
          { st := startStateTimer s .L2 }
        else
          let item := { poll with retry := poll.retry + 1 }
          let s :=
            if item.retry ≥ MaxPollItemRetries then
              { s with pollItems := rest }
            else
              { s with pollItems := item :: rest }
          { st := startStateTimer s .L2 }
  else if e.what = .stateLeave then
    { st := stopStateTimer s .L2 }
  else
    { st := s }

/-- `DEV_PollBusyStateHandler` (level-2 `PollBusy` state).
`Q_ASSERT(!d->pollItems.empty())` guards the confirm branch; the machine
only enters `PollBusy` with a non-empty queue, so the empty case is
unreachable and modelled as a no-op. -/
def DEV_PollBusyStateHandler (_c : Choice) (e : Event) (s : DeviceState) :
    HOut :=
  if e.what = .stateEnter then
    { st := startStateTimer s .L2 }
  else if e.what = .stateLeave then
    { st := stopStateTimer s .L2 }
  else if e.what = .apsConfirm ∧ e.apsId = s.readResult.apsReqId then
    match s.pollItems with
    | [] => { st := s }
    | item :: rest =>
      let s :=
        if e.apsStatus = 0x00 then -- success
          { s with pollItems := rest }
        else
          let item := { item with retry := item.retry + 1 }
          if item.retry ≥ MaxPollItemRetries then
            { s with pollItems := rest }
          else
            { s with pollItems := item :: rest }
      toState s .pollNext .L2
  else if e.what = .stateTimeout then
    -- Q_ASSERT(event.num() == STATE_LEVEL_POLL) : debug-only
    toState s .pollNext .L2
  else
    { st := s }

/-- Dispatch for the sub-machine slots (levels 1 and 2 only ever hold the
five sub-machine handlers; a top-level handler in such a slot is
unreachable and modelled as a no-op). -/
def runSub (env : Env) (c : Choice) (h : Handler) (e : Event)
    (s : DeviceState) : HOut :=
  match h with
  | .binding => DEV_BindingHandler c e s
  | .bindingTableVerify => DEV_BindingTableVerifyHandler c e s
  | .pollIdle => DEV_PollIdleStateHandler c e s
  | .pollNext => DEV_PollNextStateHandler env c e s
  | .pollBusy => DEV_PollBusyStateHandler c e s
  | _ => { st := s }

/-- The mask tested against the device key on `Init`'s `StateEnter`
(`0x00212E0000000000LLU`, the dresden elektronik MAC prefix). -/
def coordMask : Nat := 0x00212E0000000000

/-- The mask of the upper 32 key bits, used by `Init`'s ZGP test
(`0xffffffff00000000LLU`). -/
def zgpMask : Nat := 0xffffffff00000000

/-- `DEV_InitStateHandler` (#1).  On `StateEnter` the running ZDP
transaction is reset and, for keys carrying the dresden elektronik MAC
prefix, the node is looked up and a node with network address `0x0000`
(the coordinator) sends the device to `Dead`.  On
`Poll`/`Awake`/`RConfigReachable`/`RStateReachable`/`StateTimeout`/
`RStateLastUpdated` the node reference is lazily resolved, the address
items are copied, and the device moves to `NodeDescriptor` once a node
with a non-null node descriptor exists or the device is reachable; with no
node at all, a key whose upper 32 bits are zero (a Green Power device) is
sent to `Dead`. -/
def DEV_InitStateHandler (env : Env) (c : Choice) (e : Event)
    (s : DeviceState) : HOut :=
  if e.what = .stateEnter then
    let s := { s with zdpResult := {} }
    if s.deviceKey &&& coordMask = coordMask then
      let s := { s with node := env.coreNode s.deviceKey }
      match s.node with
      | some n =>
        if n.nwk = 0x0000 then
          toState s .dead .L0 -- ignore coordinator for now
        else
          { st := s }
      | none => { st := s }
    else
      { st := s }
  else if e.what = .poll ∨ e.what = .awake ∨ e.what = .configReachable ∨
      e.what = .stateReachable ∨ e.what = .stateTimeout ∨
      e.what = .stateLastUpdated then
    -- lazy reference to deCONZ::Node
    let s :=
      if s.node = none then { s with node := env.coreNode s.deviceKey } else s
    match s.node with
    | some n =>
      let s := { s with attrExt := n.ext, attrNwk := n.nwk }
      -- got a node, jump to verification
      if n.nodeDescr.isSome ∨ reachable s c.now then
        toState s .nodeDescriptor .L0
      else
        { st := s }
    | none =>
      -- DBG_Printf("DEV Init no node found")
      if s.deviceKey &&& zgpMask = 0 then
        toState s .dead .L0 -- ignore ZGP for now
      else
        { st := s }
  else
    { st := s }

/-- `DEV_NodeDescriptorStateHandler` (#2).  The state is only entered with
a node installed (`Init` guards the transition), so `device->node()` is
modelled as the cached `s.node` and the null case is a no-op. -/
def DEV_NodeDescriptorStateHandler (c : Choice) (e : Event)
    (s : DeviceState) : HOut :=
  if e.what = .stateEnter then
    match s.node with
    | none => { st := s }
    | some n =>
      if n.nodeDescr.isSome then
        -- DBG_Printf("ZDP node descriptor verified")
        toState s .activeEndpoints .L0
      else if ¬reachable s c.now then -- can't be queried, go back to #1 init
        toState s .init .L0
      else
        -- d->zdpResult = ZDP_NodeDescriptorReq(nwk, apsCtrl)
        let s := { s with zdpResult :=
          { isEnqueued := c.zdpEnqueued, apsReqId := c.zdpReqId,
            sequenceNumber := c.zdpSeq } }
        if s.zdpResult.isEnqueued then
          { st := startStateTimer s .L0, zdp := 1 }
        else
          toState s .init .L0 [] 1
  else if e.what = .apsConfirm then
    if s.zdpResult.apsReqId = e.apsId ∧ e.apsStatus ≠ ApsSuccessStatus then
      toState s .init .L0
    else
      { st := s }
  else if e.what = .nodeDescriptor then -- received the node descriptor
    let s := stopStateTimer s .L0
    -- evaluate again from #1 init, then DEV_EnqueueEvent(REventAwake)
    toState s .init .L0 [{ what := .awake }]
  else if e.what = .stateTimeout then
    toState s .init .L0
  else
    { st := s }

/-- `DEV_ActiveEndpointsStateHandler` (#3). -/
def DEV_ActiveEndpointsStateHandler (c : Choice) (e : Event)
    (s : DeviceState) : HOut :=
  if e.what = .stateEnter then
    match s.node with
    | none => { st := s }
    | some n =>
      if n.endpoints ≠ [] then
        toState s .simpleDescriptor .L0
      else if ¬reachable s c.now then
        toState s .init .L0
      else
        let s := { s with zdpResult :=
          { isEnqueued := c.zdpEnqueued, apsReqId := c.zdpReqId,
            sequenceNumber := c.zdpSeq } }
        if s.zdpResult.isEnqueued then
          { st := startStateTimer s .L0, zdp := 1 }
        else
          toState s .init .L0 [] 1
  else if e.what = .apsConfirm then
    if s.zdpResult.apsReqId = e.apsId ∧ e.apsStatus ≠ ApsSuccessStatus then
      toState s .init .L0
    else
      { st := s }
  else if e.what = .activeEndpoints then
    let s := stopStateTimer s .L0
    toState s .init .L0 [{ what := .awake }]
  else if e.what = .stateTimeout then
    toState s .init .L0
  else
    { st := s }

/-- The `needFetchEp` loop of `DEV_SimpleDescriptorStateHandler`: the first
endpoint whose simple descriptor is missing or carries device id `0xffff`;
`0x00` when all are verified. -/
def needFetchEp (n : ZNode) : Nat :=
  (n.endpoints.find? (fun ep =>
    match n.simpleDescrFor ep with
    | none => true
    | some sd => sd.deviceId = 0xffff)).getD 0x00

/-- `DEV_SimpleDescriptorStateHandler` (#4). -/
def DEV_SimpleDescriptorStateHandler (c : Choice) (e : Event)
    (s : DeviceState) : HOut :=
  if e.what = .stateEnter then
    match s.node with
    | none => { st := s }
    | some n =>
      if needFetchEp n = 0x00 then
        toState s .basicCluster .L0
      else if ¬reachable s c.now then
        toState s .init .L0
      else
        let s := { s with zdpResult :=
          { isEnqueued := c.zdpEnqueued, apsReqId := c.zdpReqId,
            sequenceNumber := c.zdpSeq } }
        if s.zdpResult.isEnqueued then
          { st := startStateTimer s .L0, zdp := 1 }
        else
          toState s .init .L0 [] 1
  else if e.what = .apsConfirm then
    if s.zdpResult.apsReqId = e.apsId ∧ e.apsStatus ≠ ApsSuccessStatus then
      toState s .init .L0
    else
      { st := s }
  else if e.what = .simpleDescriptor then
    let s := stopStateTimer s .L0
    toState s .init .L0 [{ what := .awake }]
  else if e.what = .stateTimeout then
    toState s .init .L0
  else
    { st := s }

/-- `DEV_GetSimpleDescriptorForServerCluster`: the first simple descriptor
of the node listing `clusterId` among its server (in-)clusters. -/
def simpleDescrForServerCluster (n : ZNode) (clusterId : Nat) :
    Option SimpleDescr :=
  n.simpleDescrs.find? (fun sd => clusterId ∈ sd.inClusters)

/-- `DEV_ZclRead` for one Basic-cluster attribute: fails when the device is
not reachable or no simple descriptor offers the cluster; otherwise issues
a `ZCL_ReadAttributes` whose outcome is recorded in `d->readResult`.
Returns the updated state and `d->readResult.isEnqueued`. -/
def DEV_ZclRead (c : Choice) (s : DeviceState) : DeviceState × Bool :=
  if ¬reachable s c.now then
    (s, false)
  else
    match s.node.bind (fun n => simpleDescrForServerCluster n 0x0000) with
    | none => (s, false)
    | some _ =>
      let s := { s with readResult :=
        { isEnqueued := c.readEnqueued, apsReqId := c.readReqId,
          sequenceNumber := c.readSeq } }
      (s, s.readResult.isEnqueued)

/-- `DEV_BasicClusterStateHandler` (#5), with the two-element item array
(`ManufacturerName`, `ModelId`) unrolled.  For each item
`DEV_FillItemFromSubdevices` is tried first (already-set item, or a copy
from a sub-device, modelled by the scan outcomes `c.fillManu` /
`c.fillModel`); otherwise a ZCL read is attempted: on enqueue success the
level-0 timer is armed and the state keeps waiting, on failure the loop
breaks and, since `okCount != items.size()`, the device falls back to
`Init`.  Only when both items are filled does it advance to
`GetDeviceDescription`. -/
def DEV_BasicClusterStateHandler (c : Choice) (e : Event) (s : DeviceState) :
    HOut :=
  if e.what = .stateEnter then
    -- item 1: RAttrManufacturerName.  DEV_FillItemFromSubdevices succeeds
    -- when the device item is already set or a sub-device copy succeeds,
    -- and the item is set exactly in those cases.
    let s := { s with manuNameSet := s.manuNameSet || c.fillManu }
    if s.manuNameSet then
      -- item 2: RAttrModelId
      let s := { s with modelIdSet := s.modelIdSet || c.fillModel }
      if s.modelIdSet then
        -- okCount == items.size()
        toState s .getDeviceDescription .L0
      else
        let (s, enq) := DEV_ZclRead c s
        if enq then
          { st := startStateTimer s .L0 }
        else
          -- break; okCount(1) != items.size()
          toState s .init .L0
    else
      let (s, enq) := DEV_ZclRead c s
      if enq then
        { st := startStateTimer s .L0 }
      else
        -- break; okCount(0) != items.size()
        toState s .init .L0
  else if e.what = .apsConfirm then
    if s.readResult.apsReqId = e.apsId ∧ e.apsStatus ≠ ApsSuccessStatus then
      toState s .init .L0
    else
      { st := s }
  else if e.what = .attrManufacturerName ∨ e.what = .attrModelId then
    let s := stopStateTimer s .L0
    -- ok re-evaluate
    toState s .init .L0 [{ what := .awake }]
  else if e.what = .stateTimeout then
    toState s .init .L0
  else
    { st := s }

/-- `DEV_GetDeviceDescriptionHandler` (#6).  Emits `DDFInitRequest` on
entry; a `DDFInitResponse` with `num == 1` moves to `Idle`, any other value
to `Dead`; every other event is ignored. -/
def DEV_GetDeviceDescriptionHandler (e : Event) (s : DeviceState) : HOut :=
  if e.what = .stateEnter then
    { st := s, out := [{ what := .ddfInitRequest }] }
  else if e.what = .ddfInitResponse then
    if e.num = 1 then
      toState s .idle .L0
    else
      toState s .dead .L0
  else
    { st := s }

/-- The forwarding step of `DEV_IdleStateHandler`:
`device->handleEvent(event, level)` for a sub-machine level.  The event is
never `StateEnter`/`StateLeave` here (the idle handler returns early on
those), so this is the `else if (d->state[level])` branch of
`Device::handleEvent`; the `Awake`-restarts-the-awake-timer clause only
applies at level 0. -/
def forwardSub (env : Env) (c : Choice) (e : Event) (lvl : Lvl)
    (s : DeviceState) : HOut :=
  match getSlot s lvl with
  | some h => runSub env c h e s
  | none => { st := s }

/-- `DEV_IdleStateHandler` (#7).  On `StateEnter` the two sub-machines are
installed; on `StateLeave` both are cleared; `DDFReload` falls back to
`Init` (and then still falls through); every remaining event runs
`DEV_CheckItemChanges` (external side effects only) and is forwarded to
the two sub-machine levels. -/
def DEV_IdleStateHandler (env : Env) (c : Choice) (e : Event)
    (s : DeviceState) : HOut :=
  if e.what = .stateEnter then
    let (s, o1) := setState s (some .binding) .L1
    let (s, o2) := setState s (some .pollIdle) .L2
    { st := s, out := o1 ++ o2 }
  else if e.what = .stateLeave then
    { st := idleLeave s }
  else
    let (s, o, z) :=
      if e.what = .ddfReload then
        let (s, o) := setState s (some .init) .L0
        (s, o, 0)
      else
        (s, [], 0)
    -- DEV_CheckItemChanges(device, event) : external resources only
    let r1 := forwardSub env c e .L1 s
    let r2 := forwardSub env c e .L2 r1.st
    { st := r2.st, out := o ++ r1.out ++ r2.out, zdp := z + r1.zdp + r2.zdp }

/-- `DEV_DeadStateHandler`: logs on `StateEnter`, otherwise ignores
everything. -/
def DEV_DeadStateHandler (e : Event) (s : DeviceState) : HOut :=
  -- if (event.what() == REventStateEnter) { DBG_Printf(...) }
  let _ := e
  { st := s }

/-- Full dispatch over the installed handler function pointer. -/
def runTop (env : Env) (c : Choice) (h : Handler) (e : Event)
    (s : DeviceState) : HOut :=
  match h with
  | .init => DEV_InitStateHandler env c e s
  | .nodeDescriptor => DEV_NodeDescriptorStateHandler c e s
  | .activeEndpoints => DEV_ActiveEndpointsStateHandler c e s
  | .simpleDescriptor => DEV_SimpleDescriptorStateHandler c e s
  | .basicCluster => DEV_BasicClusterStateHandler c e s
  | .getDeviceDescription => DEV_GetDeviceDescriptionHandler e s
  | .idle => DEV_IdleStateHandler env c e s
  | .dead => DEV_DeadStateHandler e s
  | .binding => DEV_BindingHandler c e s
  | .bindingTableVerify => DEV_BindingTableVerifyHandler c e s
  | .pollIdle => DEV_PollIdleStateHandler c e s
  | .pollNext => DEV_PollNextStateHandler env c e s
  | .pollBusy => DEV_PollBusyStateHandler c e s

/-- `Device::handleEvent`.  `StateEnter`/`StateLeave` carry their target
level in `event.num()` and are dispatched to that slot (the source calls
the slot unconditionally; a null slot would be undefined behaviour and is
modelled as a no-op); other events go to the slot for `level` when
installed, and an `Awake` at level 0 restarts the awake timer first. -/
def handleEvent (env : Env) (c : Choice) (e : Event) (lvl : Lvl)
    (s : DeviceState) : HOut :=
  if e.what = .stateEnter ∨ e.what = .stateLeave then
    match decodeLvl e.num with
    | some l =>
      match getSlot s l with
      | some h => runTop env c h e s
      | none => { st := s }
    | none => { st := s }
  else
    match getSlot s lvl with
    | some h =>
      let s :=
        if e.what = .awake ∧ lvl = .L0 then
          { s with awakeValid := true, awakeStart := c.now }
        else s
      runTop env c h e s
    | none => { st := s }

/-- A configuration of the per-device event system: the device state plus
the slice of the process mailbox addressed to this device, in delivery
order. -/
structure Config where
  dev : DeviceState
  queue : List Event
deriving DecidableEq

/-- External writes to the device's resource items (and to the node object
`d->node` points at, whose contents the deCONZ core updates
independently).  Only data the handlers read is listed. -/
structure ItemUpdate where
  reachableVal : Option Bool := none
  sleeperVal : Option Bool := none
  manuVal : Option Bool := none
  modelVal : Option Bool := none
  nodeVal : Option (Option ZNode) := none

/-- Apply an external item write. -/
def applyUpdate (u : ItemUpdate) (s : DeviceState) : DeviceState :=
  { s with
    itemReachable := u.reachableVal.getD s.itemReachable
    itemSleeper := u.sleeperVal.getD s.itemSleeper
    manuNameSet := u.manuVal.getD s.manuNameSet
    modelIdSet := u.modelVal.getD s.modelIdSet
    node := u.nodeVal.getD s.node }

/-- `StateEnter`, `StateLeave` and `StateTimeout` are produced only by
`setState` and the timers; everything else can enter the mailbox from
outside (APS confirms, ZDP/ZCL responses, attribute notifications, DDF
events, `Poll` ticks). -/
def injectable (e : Event) : Bool :=
  e.what ≠ .stateEnter ∧ e.what ≠ .stateLeave ∧ e.what ≠ .stateTimeout

/-- One step of the event system:

* `deliver`: pop the front mailbox event and run `Device::handleEvent` at
  level 0 (the level the process-wide dispatcher uses); events the handler
  emits are appended to the mailbox in order;
* `inject`: the outside world appends an external event;
* `fireTimer`: an armed level timer expires — `Device::timerEvent` stops it
  and synthesizes a `StateTimeout` delivered directly to that level's slot;
* `setItems`: the external resource layer updates item values.

The second component counts the ZDP requests issued during the step. -/
inductive StepInput
  | deliver (c : Choice)
  | inject (e : Event)
  | fireTimer (lvl : Lvl) (c : Choice)
  | setItems (u : ItemUpdate)

/-- The step function, returning the new configuration and the number of
ZDP requests issued. -/
def stepFull (env : Env) (inp : StepInput) (cfg : Config) : Config × Nat :=
  match inp with
  | .deliver c =>
    match cfg.queue with
    | [] => (cfg, 0)
    | e :: rest =>
      let r := handleEvent env c e .L0 cfg.dev
      (⟨r.st, rest ++ r.out⟩, r.zdp)
  | .inject e =>
    if injectable e then (⟨cfg.dev, cfg.queue ++ [e]⟩, 0) else (cfg, 0)
  | .fireTimer lvl c =>
    if timerArmed cfg.dev lvl then
      let s := stopStateTimer cfg.dev lvl -- single shot
      match getSlot s lvl with
      | some h =>
        let r := runTop env c h (mkTimeout lvl) s
        (⟨r.st, cfg.queue ++ r.out⟩, r.zdp)
      | none => (⟨s, cfg.queue⟩, 0)
    else
      (cfg, 0)
  | .setItems u => (⟨applyUpdate u cfg.dev, cfg.queue⟩, 0)

/-- The step function without the ZDP request count. -/
def step (env : Env) (inp : StepInput) (cfg : Config) : Config :=
  (stepFull env inp cfg).1

/-- The state of a freshly constructed `Device` (the constructor adds the
resource items and runs `d->setState(DEV_InitStateHandler)` from the
all-null slot array, which emits the first `StateEnter`). -/
def initialConfig (key : Nat) : Config :=
  ⟨{ deviceKey := key, s0 := some .init }, [mkEnter .L0]⟩

/-- The configurations the event system can reach for a device with a
given key, under arbitrary interleavings of deliveries, injections, timer
expiries and external item writes. -/
inductive Reach (env : Env) (key : Nat) : Config → Prop
  | base : Reach env key (initialConfig key)
  | next {cfg : Config} (h : Reach env key cfg) (inp : StepInput) :
      Reach env key (step env inp cfg)

/-- Run a list of step inputs. -/
def runSteps (env : Env) (cfg : Config) : List StepInput → Config
  | [] => cfg
  | inp :: rest => runSteps env (step env inp cfg) rest

/-- The total number of ZDP requests issued while running a list of step
inputs. -/
def zdpCount (env : Env) (cfg : Config) : List StepInput → Nat
  | [] => 0
  | inp :: rest =>
    (stepFull env inp cfg).2 + zdpCount env (step env inp cfg) rest

/-- `DEV_RemoveDevice` over the device registry (`DeviceContainer`,
modelled by the list of stored device keys): erases the first matching
device, then returns `false` unconditionally. -/
def DEV_RemoveDevice (devices : List Nat) (key : Nat) : List Nat × Bool :=
  let devices :=
    match devices.findIdx? (fun k => k = key) with
    | some i => devices.eraseIdx i
    | none => devices
  (devices, false)

/-! ## Invariant infrastructure

The handler slots only ever hold handlers of their own level; the
predicates below classify them, and the `*_spec` lemmas summarise each
handler's possible effects, which the reachability invariant is proved
from. -/

/-- Handlers that can be installed at level 0. -/
def TopH (h : Handler) : Prop :=
  h = .init ∨ h = .nodeDescriptor ∨ h = .activeEndpoints ∨
  h = .simpleDescriptor ∨ h = .basicCluster ∨ h = .getDeviceDescription ∨
  h = .idle ∨ h = .dead

/-- Handlers that can be installed at level 1. -/
def BindH (h : Handler) : Prop :=
  h = .binding ∨ h = .bindingTableVerify

/-- Handlers that can be installed at level 2. -/
def PollH (h : Handler) : Prop :=
  h = .pollIdle ∨ h = .pollNext ∨ h = .pollBusy

/-- No `StateLeave` event in a list (the mailbox never carries one:
`setState` delivers `StateLeave` synchronously). -/
def NoLeaveOut (l : List Event) : Prop :=
  ∀ ev ∈ l, ev.what ≠ .stateLeave

/-- No level-0 `StateEnter` event in a list. -/
def NoEnter0Out (l : List Event) : Prop :=
  ∀ ev ∈ l, ev.what = .stateEnter → ev.num ≠ 0

/-- Whether a level-0 `StateEnter` event is pending in the mailbox. -/
def hasEnter0 (q : List Event) : Bool :=
  q.any (fun ev => ev.what = .stateEnter ∧ ev.num = 0)

/-- How one step may transform the poll queue: unchanged, dropped, one or
two items popped from the head (the double pop is the dead-slot retry
increment of `DEV_PollNextStateHandler` reaching the cap), the head's
retry incremented below the cap, or a fresh scan of retry-0 items. -/
def QMove (q q' : List PollItem) : Prop :=
  q' = q ∨ q' = q.tail ∨ q' = q.tail.tail ∨
  (∃ it t, q = it :: t ∧ it.retry + 1 < MaxPollItemRetries ∧
    q' = { it with retry := it.retry + 1 } :: t) ∨
  (∀ it ∈ q', it.retry = 0)

/-- The poll-queue invariants: every queued item's retry is below the cap;
an item whose `readParameters` have no read function still has retry 0
(its first visit in `PollNext` discards it); in `PollBusy` the queue head
(the item whose read is in flight) has a read function. -/
def PollInv (env : Env) (s : DeviceState) : Prop :=
  (∀ it ∈ s.pollItems, it.retry < MaxPollItemRetries) ∧
  (∀ it ∈ s.pollItems, env.readFn it.readParameters = none → it.retry = 0) ∧
  (s.s2 = some .pollBusy →
    ∀ it t, s.pollItems = it :: t → (env.readFn it.readParameters).isSome)

/-- Slot-kind hypotheses for a state (levels hold handlers of their own
machine). -/
def SlotKinds (s : DeviceState) : Prop :=
  (∀ h, s.s1 = some h → BindH h) ∧ (∀ h, s.s2 = some h → PollH h)

/-- Handlers whose synchronous `StateLeave` behaviour is trivial. -/
theorem leaveEffect_plain (h : Handler) (hd : h ≠ .idle ∧ h ≠ .pollNext ∧ h ≠ .pollBusy)
    (st : DeviceState) : leaveEffect h st = st := by
  cases h <;> simp_all [leaveEffect]

theorem eta_s1 (s : DeviceState) (h' : Handler) (h : s.s1 = some h') :
    { s with s1 := some h' } = s := by
  rw [← h]

theorem setState_L1_bind (s : DeviceState) (h' : Handler)
    (hk : ∀ h, s.s1 = some h → BindH h) :
    (setState s (some h') .L1).1 = { s with s1 := some h' } ∧
    ((setState s (some h') .L1).2 = [] ∨
      (setState s (some h') .L1).2 = [mkEnter .L1]) := by
  have hleave : (match getSlot s .L1 with
      | some h => leaveEffect h s
      | none => s) = s := by
    cases hs1 : s.s1 with
    | none => simp [getSlot, hs1]
    | some h =>
      have := hk h hs1
      rcases this with h1 | h1 <;>
        simp [getSlot, hs1, h1, leaveEffect]
  by_cases heq : getSlot s .L1 = some h'
  · have h2 : setState s (some h') .L1 = (s, []) := by
      unfold setState; rw [if_pos heq]
    rw [h2]
    exact ⟨(eta_s1 s h' heq).symm, Or.inl rfl⟩
  · have h2 : setState s (some h') .L1 = ({ s with s1 := some h' }, [mkEnter .L1]) := by
      unfold setState
      rw [if_neg heq, hleave]
      rfl
    rw [h2]
    exact ⟨rfl, Or.inr rfl⟩

theorem subLeave_fields (h : Handler) (s : DeviceState) :
    (subLeave h s).s0 = s.s0 ∧ (subLeave h s).s1 = s.s1 ∧
    (subLeave h s).s2 = s.s2 ∧ (subLeave h s).pollItems = s.pollItems := by
  cases h <;> simp [subLeave, stopStateTimer]

theorem idleLeave_fields (s : DeviceState) :
    (idleLeave s).s0 = s.s0 ∧ (idleLeave s).s1 = none ∧
    (idleLeave s).s2 = none ∧ (idleLeave s).pollItems = s.pollItems := by
  unfold idleLeave
  cases hs1 : s.s1 with
  | none =>
    cases hs2 : s.s2 with
    | none => simp [hs1, hs2]
    | some h2 => cases h2 <;> simp [hs1, hs2, subLeave, setSlot, stopStateTimer]
  | some h1 =>
    cases hs2 : s.s2 with
    | none =>
      cases h1 <;> simp [hs1, hs2, subLeave, setSlot, stopStateTimer]
    | some h2 =>
      cases h1 <;> cases h2 <;>
        simp [hs1, hs2, subLeave, setSlot, stopStateTimer]

theorem setState_L2_poll (s : DeviceState) (h' : Handler)
    (hk : ∀ h, s.s2 = some h → PollH h) :
    (setState s (some h') .L2).1.s0 = s.s0 ∧
    (setState s (some h') .L2).1.s1 = s.s1 ∧
    (setState s (some h') .L2).1.s2 = some h' ∧
    (setState s (some h') .L2).1.pollItems = s.pollItems ∧
    ((setState s (some h') .L2).2 = [] ∨
      (setState s (some h') .L2).2 = [mkEnter .L2]) := by
  have hleave : (match getSlot s .L2 with
      | some h => leaveEffect h s
      | none => s) = s ∨
      (match getSlot s .L2 with
      | some h => leaveEffect h s
      | none => s) = { s with t2 := false } := by
    cases hs2 : s.s2 with
    | none => simp [getSlot, hs2]
    | some h =>
      rcases hk h hs2 with h1 | h1 | h1 <;> subst h1 <;>
        simp [getSlot, hs2, leaveEffect, stopStateTimer]
  by_cases heq : getSlot s .L2 = some h'
  · have h2 : setState s (some h') .L2 = (s, []) := by
      unfold setState; rw [if_pos heq]
    rw [h2]
    simp only [getSlot] at heq
    exact ⟨rfl, rfl, heq, rfl, Or.inl rfl⟩
  · have h2 : setState s (some h') .L2 =
        (setSlot (match getSlot s .L2 with
          | some h => leaveEffect h s
          | none => s) .L2 (some h'), [mkEnter .L2]) := by
      unfold setState
      rw [if_neg heq]
    rw [h2]
    rcases hleave with hl | hl <;> rw [hl] <;> simp [setSlot]

theorem setState_L0_plain (s : DeviceState) (h0 h' : Handler)
    (h0eq : s.s0 = some h0)
    (hd : h0 ≠ .idle ∧ h0 ≠ .pollNext ∧ h0 ≠ .pollBusy) :
    (setState s (some h') .L0).1.s0 = some h' ∧
    (setState s (some h') .L0).1.s1 = s.s1 ∧
    (setState s (some h') .L0).1.s2 = s.s2 ∧
    (setState s (some h') .L0).1.pollItems = s.pollItems ∧
    ((setState s (some h') .L0).2 = [mkEnter .L0] ∨
      ((setState s (some h') .L0).2 = [] ∧ s.s0 = some h')) := by
  by_cases heq : getSlot s .L0 = some h'
  · have h2 : setState s (some h') .L0 = (s, []) := by
      unfold setState; rw [if_pos heq]
    rw [h2]
    simp only [getSlot] at heq
    exact ⟨heq, rfl, rfl, rfl, Or.inr ⟨rfl, heq⟩⟩
  · have h2 : setState s (some h') .L0 =
        (setSlot (match getSlot s .L0 with
          | some h => leaveEffect h s
          | none => s) .L0 (some h'), [mkEnter .L0]) := by
      unfold setState
      rw [if_neg heq]
    rw [h2]
    have hleave : (match getSlot s .L0 with
        | some h => leaveEffect h s
        | none => s) = s := by
      simp only [getSlot, h0eq]
      exact leaveEffect_plain h0 hd s
    rw [hleave]
    simp [setSlot]

theorem setState_L0_from_idle (s : DeviceState) (h' : Handler)
    (h0eq : s.s0 = some .idle) (hne : h' ≠ .idle) :
    (setState s (some h') .L0).1.s0 = some h' ∧
    (setState s (some h') .L0).1.s1 = none ∧
    (setState s (some h') .L0).1.s2 = none ∧
    (setState s (some h') .L0).1.pollItems = s.pollItems ∧
    (setState s (some h') .L0).2 = [mkEnter .L0] := by
  have heq : ¬(getSlot s .L0 = some h') := by
    simp [getSlot, h0eq]
    intro hc
    exact hne hc.symm
  have h2 : setState s (some h') .L0 =
      (setSlot (match getSlot s .L0 with
        | some h => leaveEffect h s
        | none => s) .L0 (some h'), [mkEnter .L0]) := by
    unfold setState
    rw [if_neg heq]
  rw [h2]
  have hleave : (match getSlot s .L0 with
      | some h => leaveEffect h s
      | none => s) = idleLeave s := by
    simp [getSlot, h0eq, leaveEffect]
  rw [hleave]
  have := idleLeave_fields s
  simp [setSlot, this.1, this.2.1, this.2.2.1, this.2.2.2]

theorem toState_L1_bind (s : DeviceState) (h' : Handler) (extra : List Event)
    (z : Nat) (hk : ∀ h, s.s1 = some h → BindH h) :
    (toState s h' .L1 extra z).st = { s with s1 := some h' } ∧
    ((toState s h' .L1 extra z).out = extra ∨
      (toState s h' .L1 extra z).out = mkEnter .L1 :: extra) ∧
    (toState s h' .L1 extra z).zdp = z := by
  obtain ⟨ha, hb⟩ := setState_L1_bind s h' hk
  unfold toState
  rcases hsp : setState s (some h') .L1 with ⟨st2, o2⟩
  rw [hsp] at ha hb
  simp only at ha hb
  rcases hb with hb | hb <;> subst hb <;> simp [ha]

theorem toState_L2_poll (s : DeviceState) (h' : Handler) (extra : List Event)
    (z : Nat) (hk : ∀ h, s.s2 = some h → PollH h) :
    (toState s h' .L2 extra z).st.s0 = s.s0 ∧
    (toState s h' .L2 extra z).st.s1 = s.s1 ∧
    (toState s h' .L2 extra z).st.s2 = some h' ∧
    (toState s h' .L2 extra z).st.pollItems = s.pollItems ∧
    ((toState s h' .L2 extra z).out = extra ∨
      (toState s h' .L2 extra z).out = mkEnter .L2 :: extra) ∧
    (toState s h' .L2 extra z).zdp = z := by
  obtain ⟨h1, h2, h3, h4, h5⟩ := setState_L2_poll s h' hk
  unfold toState
  rcases hsp : setState s (some h') .L2 with ⟨st2, o2⟩
  rw [hsp] at h1 h2 h3 h4 h5
  simp only at h1 h2 h3 h4 h5
  rcases h5 with h5 | h5 <;> subst h5 <;> simp [h1, h2, h3, h4]

theorem toState_L0_plain (s : DeviceState) (h0 h' : Handler)
    (extra : List Event) (z : Nat) (h0eq : s.s0 = some h0)
    (hd : h0 ≠ .idle ∧ h0 ≠ .pollNext ∧ h0 ≠ .pollBusy) :
    (toState s h' .L0 extra z).st.s0 = some h' ∧
    (toState s h' .L0 extra z).st.s1 = s.s1 ∧
    (toState s h' .L0 extra z).st.s2 = s.s2 ∧
    (toState s h' .L0 extra z).st.pollItems = s.pollItems ∧
    ((toState s h' .L0 extra z).out = mkEnter .L0 :: extra ∨
      ((toState s h' .L0 extra z).out = extra ∧ s.s0 = some h')) ∧
    (toState s h' .L0 extra z).zdp = z := by
  obtain ⟨h1, h2, h3, h4, h5⟩ := setState_L0_plain s h0 h' h0eq hd
  unfold toState
  rcases hsp : setState s (some h') .L0 with ⟨st2, o2⟩
  rw [hsp] at h1 h2 h3 h4 h5
  simp only at h1 h2 h3 h4 h5
  rcases h5 with h5 | ⟨h5, h6⟩
  · subst h5; simp [h1, h2, h3, h4]
  · subst h5; simp [h1, h2, h3, h4, h6]

theorem toState_L0_idle (s : DeviceState) (h' : Handler)
    (extra : List Event) (z : Nat) (h0eq : s.s0 = some .idle)
    (hne : h' ≠ .idle) :
    (toState s h' .L0 extra z).st.s0 = some h' ∧
    (toState s h' .L0 extra z).st.s1 = none ∧
    (toState s h' .L0 extra z).st.s2 = none ∧
    (toState s h' .L0 extra z).st.pollItems = s.pollItems ∧
    (toState s h' .L0 extra z).out = mkEnter .L0 :: extra ∧
    (toState s h' .L0 extra z).zdp = z := by
  obtain ⟨h1, h2, h3, h4, h5⟩ := setState_L0_from_idle s h' h0eq hne
  unfold toState
  rcases hsp : setState s (some h') .L0 with ⟨st2, o2⟩
  rw [hsp] at h1 h2 h3 h4 h5
  simp only at h1 h2 h3 h4 h5
  subst h5
  simp [h1, h2, h3, h4]

/-- `PollInv` only reads the level-2 slot and the poll queue. -/
theorem pollInv_congr (env : Env) {s s' : DeviceState}
    (h2 : s'.s2 = s.s2) (hq : s'.pollItems = s.pollItems) :
    PollInv env s → PollInv env s' := by
  intro h
  unfold PollInv at h ⊢
  rw [h2, hq]
  exact h

theorem qmove_refl (q : List PollItem) : QMove q q := Or.inl rfl

/-- Uniform description of one poll-machine handler invocation. -/
def PollSpecOut (env : Env) (s : DeviceState) (r : HOut) : Prop :=
  r.st.s0 = s.s0 ∧ r.st.s1 = s.s1 ∧
  (r.st.s2 = s.s2 ∨ r.st.s2 = some .pollIdle ∨ r.st.s2 = some .pollNext ∨
    r.st.s2 = some .pollBusy) ∧
  QMove s.pollItems r.st.pollItems ∧
  (PollInv env s → PollInv env r.st) ∧
  NoLeaveOut r.out ∧ NoEnter0Out r.out ∧ r.zdp = 0

/-- A no-op invocation satisfies `PollSpecOut`. -/
theorem pollSpecOut_id (env : Env) (s : DeviceState) :
    PollSpecOut env s { st := s } := by
  refine ⟨rfl, rfl, Or.inl rfl, qmove_refl _, fun h => h, ?_, ?_, rfl⟩ <;>
    simp [NoLeaveOut, NoEnter0Out]

/-- A timer-only invocation satisfies `PollSpecOut`. -/
theorem pollSpecOut_timer (env : Env) (s sB : DeviceState)
    (hs0 : sB.s0 = s.s0) (hs1 : sB.s1 = s.s1) (hs2 : sB.s2 = s.s2)
    (hq : sB.pollItems = s.pollItems) :
    PollSpecOut env s { st := sB } := by
  refine ⟨hs0, hs1, Or.inl hs2, ?_, ?_, ?_, ?_, rfl⟩
  · rw [hq]; exact qmove_refl _
  · exact pollInv_congr env hs2 hq
  · simp [NoLeaveOut]
  · simp [NoEnter0Out]

/-- The `d->setState(h, STATE_LEVEL_POLL); return` tail of the poll
handlers, for an arbitrary intermediate state `sB`. -/
theorem pollTail_ok (env : Env) (s₀ sB : DeviceState) (h' : Handler)
    (hh : PollH h')
    (hs0 : sB.s0 = s₀.s0) (hs1 : sB.s1 = s₀.s1) (hs2 : sB.s2 = s₀.s2)
    (hks : ∀ h, s₀.s2 = some h → PollH h)
    (hq : QMove s₀.pollItems sB.pollItems)
    (hinv : PollInv env s₀ →
      (∀ it ∈ sB.pollItems, it.retry < MaxPollItemRetries) ∧
      (∀ it ∈ sB.pollItems,
        env.readFn it.readParameters = none → it.retry = 0) ∧
      (h' = .pollBusy → ∀ it t, sB.pollItems = it :: t →
        (env.readFn it.readParameters).isSome)) :
    PollSpecOut env s₀ (toState sB h' .L2 [] 0) := by
  obtain ⟨a0, a1, a2, a3, a4, a5⟩ := toState_L2_poll sB h' [] 0
    (by intro h hh2; exact hks h (hs2 ▸ hh2))
  refine ⟨a0.trans hs0, a1.trans hs1, ?_, ?_, ?_, ?_, ?_, a5⟩
  · rcases hh with h | h | h <;> rw [a2, h] <;> simp
  · rw [a3]; exact hq
  · intro hpre
    obtain ⟨i1, i2, i3⟩ := hinv hpre
    refine ⟨?_, ?_, ?_⟩
    · rw [a3]; exact i1
    · rw [a3]; exact i2
    · rw [a2, a3]
      intro hbusy
      exact i3 (by injection hbusy)
  · rcases a4 with h | h <;> rw [h] <;> simp [NoLeaveOut, mkEnter]
  · rcases a4 with h | h <;> rw [h] <;>
      simp [NoEnter0Out, mkEnter, Lvl.toNat]

theorem pollIdle_spec (c : Choice) (e : Event) (s : DeviceState) (env : Env)
    (hks : ∀ h, s.s2 = some h → PollH h) :
    PollSpecOut env s (DEV_PollIdleStateHandler c e s) := by
  unfold DEV_PollIdleStateHandler
  by_cases hp : e.what = .poll
  · rw [if_pos hp]
    dsimp only
    by_cases hne : (c.pollScan.map (fun p =>
        ({ itemId := p.1, readParameters := p.2 } : PollItem))) ≠ []
    · rw [if_pos hne]
      refine pollTail_ok env s _ .pollNext (by simp [PollH]) rfl rfl rfl hks
        ?_ ?_
      · right; right; right; right
        intro it hit
        simp only [List.mem_map] at hit
        obtain ⟨p, _, hp2⟩ := hit
        rw [← hp2]
      · intro _
        refine ⟨?_, ?_, ?_⟩
        · intro it hit
          simp only [List.mem_map] at hit
          obtain ⟨p, _, hp2⟩ := hit
          rw [← hp2]
          exact Nat.succ_pos 2
        · intro it hit
          simp only [List.mem_map] at hit
          obtain ⟨p, _, hp2⟩ := hit
          rw [← hp2]
          intro _; rfl
        · intro hcon; cases hcon
    · rw [if_neg hne]
      push_neg at hne
      refine ⟨rfl, rfl, Or.inl rfl, ?_, ?_, ?_, ?_, rfl⟩
      · right; right; right; right
        intro it hit
        rw [hne] at hit
        cases hit
      · intro hpre
        refine ⟨?_, ?_, ?_⟩
        · intro it hit; rw [hne] at hit; cases hit
        · intro it hit; rw [hne] at hit; cases hit
        · intro _ it t hit
          rw [hne] at hit
          cases hit
      · simp [NoLeaveOut]
      · simp [NoEnter0Out]
  · rw [if_neg hp]
    exact pollSpecOut_id env s

theorem pollBusy_spec (c : Choice) (e : Event) (s : DeviceState) (env : Env)
    (hs2 : s.s2 = some .pollBusy)
    (hks : ∀ h, s.s2 = some h → PollH h) :
    PollSpecOut env s (DEV_PollBusyStateHandler c e s) := by
  unfold DEV_PollBusyStateHandler
  by_cases hse : e.what = .stateEnter
  · rw [if_pos hse]
    exact pollSpecOut_timer env s _ rfl rfl rfl rfl
  · rw [if_neg hse]
    by_cases hsl : e.what = .stateLeave
    · rw [if_pos hsl]
      exact pollSpecOut_timer env s _ rfl rfl rfl rfl
    · rw [if_neg hsl]
      by_cases hconf : e.what = .apsConfirm ∧ e.apsId = s.readResult.apsReqId
      · rw [if_pos hconf]
        rcases hqe : s.pollItems with _ | ⟨hd, tl⟩
        · simp only [hqe]
          exact pollSpecOut_id env s
        · simp only [hqe]
          by_cases hsucc : e.apsStatus = 0x00
          · rw [if_pos hsucc]
            refine pollTail_ok env s _ .pollNext (by simp [PollH])
              rfl rfl rfl hks ?_ ?_
            · right; left
              rw [hqe]
              rfl
            · intro hpre
              refine ⟨?_, ?_, ?_⟩
              · intro it hit
                exact hpre.1 it (by rw [hqe]; exact List.mem_cons_of_mem _ hit)
              · intro it hit
                exact hpre.2.1 it
                  (by rw [hqe]; exact List.mem_cons_of_mem _ hit)
              · intro hcon; cases hcon
          · rw [if_neg hsucc]
            by_cases hcap : hd.retry + 1 ≥ MaxPollItemRetries
            · rw [if_pos hcap]
              refine pollTail_ok env s _ .pollNext (by simp [PollH])
                rfl rfl rfl hks ?_ ?_
              · right; left
                rw [hqe]
                rfl
              · intro hpre
                refine ⟨?_, ?_, ?_⟩
                · intro it hit
                  exact hpre.1 it
                    (by rw [hqe]; exact List.mem_cons_of_mem _ hit)
                · intro it hit
                  exact hpre.2.1 it
                    (by rw [hqe]; exact List.mem_cons_of_mem _ hit)
                · intro hcon; cases hcon
            · rw [if_neg hcap]
              refine pollTail_ok env s _ .pollNext (by simp [PollH])
                rfl rfl rfl hks ?_ ?_
              · right; right; right; left
                exact ⟨hd, tl, hqe, Nat.lt_of_not_le hcap, rfl⟩
              · intro hpre
                refine ⟨?_, ?_, ?_⟩
                · intro it hit
                  rcases List.mem_cons.mp hit with h | h
                  · rw [h]
                    exact Nat.lt_of_not_le hcap
                  · exact hpre.1 it
                      (by rw [hqe]; exact List.mem_cons_of_mem _ h)
                · intro it hit hfn
                  rcases List.mem_cons.mp hit with h | h
                  · exfalso
                    have := hpre.2.2 hs2 hd tl hqe
                    rw [h] at hfn
                    simp only at hfn
                    rw [hfn] at this
                    cases this
                  · exact hpre.2.1 it
                      (by rw [hqe]; exact List.mem_cons_of_mem _ h) hfn
                · intro hcon; cases hcon
      · rw [if_neg hconf]
        by_cases hto : e.what = .stateTimeout
        · rw [if_pos hto]
          refine pollTail_ok env s _ .pollNext (by simp [PollH])
            rfl rfl rfl hks (qmove_refl _) ?_
          intro hpre
          exact ⟨hpre.1, hpre.2.1, by intro hcon; cases hcon⟩
        · rw [if_neg hto]
          exact pollSpecOut_id env s

theorem pollNext_spec (env : Env) (c : Choice) (e : Event) (s : DeviceState)
    (hs2 : s.s2 = some .pollNext)
    (hks : ∀ h, s.s2 = some h → PollH h) :
    PollSpecOut env s (DEV_PollNextStateHandler env c e s) := by
  unfold DEV_PollNextStateHandler
  by_cases hset : e.what = .stateEnter ∨ e.what = .stateTimeout
  · rw [if_pos hset]
    by_cases hr : reachable s c.now = true
    · rw [if_pos hr]
      rcases hqe : s.pollItems with _ | ⟨hd, tl⟩
      · simp only [hqe]
        refine pollTail_ok env s s .pollIdle (by simp [PollH])
          rfl rfl rfl hks (qmove_refl _) ?_
        intro hpre
        exact ⟨hpre.1, hpre.2.1, by intro hcon; cases hcon⟩
      · simp only [hqe]
        rcases hfn : env.readFn hd.readParameters with _ | u
        · -- no read function: pop_back, dead-slot retry++, possible 2nd pop
          simp only [hfn]
          have hzero : PollInv env s → hd.retry = 0 := by
            intro hpre
            exact hpre.2.1 hd (by rw [hqe]; exact List.mem_cons_self _ _) hfn
          by_cases hcap : hd.retry + 1 ≥ MaxPollItemRetries
          · rw [if_neg (by simp), if_pos hcap]
            refine ⟨rfl, rfl, Or.inl rfl, ?_, ?_, ?_, ?_, rfl⟩
            · right; right; left
              rw [hqe]
              rfl
            · intro hpre
              exfalso
              have h0 := hzero hpre
              rw [h0] at hcap
              exact absurd hcap (by decide)
            · simp [NoLeaveOut]
            · simp [NoEnter0Out]
          · rw [if_neg (by simp), if_neg hcap]
            refine ⟨rfl, rfl, Or.inl rfl, ?_, ?_, ?_, ?_, rfl⟩
            · right; left
              rw [hqe]
              rfl
            · intro hpre
              refine ⟨?_, ?_, ?_⟩
              · intro it hit
                exact hpre.1 it
                  (by rw [hqe]; exact List.mem_cons_of_mem _ hit)
              · intro it hit
                exact hpre.2.1 it
                  (by rw [hqe]; exact List.mem_cons_of_mem _ hit)
              · intro hcon
                rw [hs2] at hcon
                cases hcon
            · simp [NoLeaveOut]
            · simp [NoEnter0Out]
        · -- a read function exists
          simp only [hfn]
          rw [if_neg (by decide : ¬((false : Bool) = true))]
          by_cases henq : c.readEnqueued = true
          · rw [if_pos henq]
            refine pollTail_ok env s _ .pollBusy (by simp [PollH])
              rfl rfl rfl hks ?_ ?_
            · rw [hqe]; exact qmove_refl _
            · intro hpre
              refine ⟨?_, ?_, ?_⟩
              · intro it hit
                exact hpre.1 it (by rw [hqe]; exact hit)
              · intro it hit
                exact hpre.2.1 it (by rw [hqe]; exact hit)
              · intro _ it t hit
                simp only [hqe] at hit
                injection hit with h1 h2
                rw [← h1, hfn]
                rfl
          · rw [if_neg henq]
            by_cases hcap : hd.retry + 1 ≥ MaxPollItemRetries
            · rw [if_pos hcap]
              refine ⟨rfl, rfl, Or.inl rfl, ?_, ?_, ?_, ?_, rfl⟩
              · right; left
                rw [hqe]
                rfl
              · intro hpre
                refine ⟨?_, ?_, ?_⟩
                · intro it hit
                  exact hpre.1 it
                    (by rw [hqe]; exact List.mem_cons_of_mem _ hit)
                · intro it hit
                  exact hpre.2.1 it
                    (by rw [hqe]; exact List.mem_cons_of_mem _ hit)
                · intro hcon
                  rw [hs2] at hcon
                  cases hcon
              · simp [NoLeaveOut]
              · simp [NoEnter0Out]
            · rw [if_neg hcap]
              refine ⟨rfl, rfl, Or.inl rfl, ?_, ?_, ?_, ?_, rfl⟩
              · right; right; right; left
                exact ⟨hd, tl, hqe, Nat.lt_of_not_le hcap, rfl⟩
              · intro hpre
                refine ⟨?_, ?_, ?_⟩
                · intro it hit
                  rcases List.mem_cons.mp hit with h | h
                  · rw [h]
                    exact Nat.lt_of_not_le hcap
                  · exact hpre.1 it
                      (by rw [hqe]; exact List.mem_cons_of_mem _ h)
                · intro it hit hfn2
                  rcases List.mem_cons.mp hit with h | h
                  · exfalso
                    rw [h] at hfn2
                    simp only at hfn2
                    rw [hfn2] at hfn
                    cases hfn
                  · exact hpre.2.1 it
                      (by rw [hqe]; exact List.mem_cons_of_mem _ h) hfn2
                · intro hcon
                  rw [hs2] at hcon
                  cases hcon
              · simp [NoLeaveOut]
              · simp [NoEnter0Out]
    · rw [if_neg hr]
      dsimp only
      rcases hqe : (({ s with pollItems := [] } : DeviceState)).pollItems
        with _ | ⟨hd, tl⟩
      · refine pollTail_ok env s _ .pollIdle (by simp [PollH])
          rfl rfl rfl hks ?_ ?_
        · right; right; right; right
          intro it hit
          cases hit
        · intro hpre
          refine ⟨?_, ?_, ?_⟩
          · intro it hit; cases hit
          · intro it hit; cases hit
          · intro _ it t hit; cases hit
      · cases hqe
  · rw [if_neg hset]
    by_cases hsl : e.what = .stateLeave
    · rw [if_pos hsl]
      exact pollSpecOut_timer env s _ rfl rfl rfl rfl
    · rw [if_neg hsl]
      exact pollSpecOut_id env s

/-- The `d->setState(h, STATE_LEVEL_BINDING); return` tail of the binding
handlers, for an arbitrary intermediate state `sB` agreeing with `s₀` on
the relevant fields. -/
theorem bindTail_ok (s₀ sB : DeviceState) (h' : Handler) (extra : List Event)
    (hx1 : NoLeaveOut extra) (hx2 : NoEnter0Out extra)
    (hs0 : sB.s0 = s₀.s0) (hs1 : sB.s1 = s₀.s1) (hs2 : sB.s2 = s₀.s2)
    (hpi : sB.pollItems = s₀.pollItems)
    (hk : ∀ h, s₀.s1 = some h → BindH h) :
    (toState sB h' .L1 extra 0).st.s0 = s₀.s0 ∧
    (toState sB h' .L1 extra 0).st.s2 = s₀.s2 ∧
    (toState sB h' .L1 extra 0).st.pollItems = s₀.pollItems ∧
    ((toState sB h' .L1 extra 0).st.s1 = s₀.s1 ∨
      (toState sB h' .L1 extra 0).st.s1 = some h') ∧
    NoLeaveOut (toState sB h' .L1 extra 0).out ∧
    NoEnter0Out (toState sB h' .L1 extra 0).out ∧
    (toState sB h' .L1 extra 0).zdp = 0 := by
  obtain ⟨h1, h2, h3⟩ := toState_L1_bind sB h' extra 0
    (by intro h hh; exact hk h (hs1 ▸ hh))
  unfold NoLeaveOut at hx1
  unfold NoEnter0Out at hx2
  rcases h2 with h2 | h2 <;>
    simp [h1, h2, h3, hs0, hs1, hs2, hpi, NoLeaveOut, NoEnter0Out, mkEnter,
      Lvl.toNat, hx1, hx2] <;>
    exact ⟨hx1, hx2⟩

/-- `DEV_BindingHandler` invocation summary. -/
theorem binding_spec (c : Choice) (e : Event) (s : DeviceState)
    (hk : ∀ h, s.s1 = some h → BindH h) :
    (DEV_BindingHandler c e s).st.s0 = s.s0 ∧
    (DEV_BindingHandler c e s).st.s2 = s.s2 ∧
    (DEV_BindingHandler c e s).st.pollItems = s.pollItems ∧
    ((DEV_BindingHandler c e s).st.s1 = s.s1 ∨
      (DEV_BindingHandler c e s).st.s1 = some .bindingTableVerify) ∧
    NoLeaveOut (DEV_BindingHandler c e s).out ∧
    NoEnter0Out (DEV_BindingHandler c e s).out ∧
    (DEV_BindingHandler c e s).zdp = 0 := by
  unfold DEV_BindingHandler
  by_cases hpa : e.what = .poll ∨ e.what = .awake
  · rw [if_pos hpa]
    by_cases hg : ¬s.binding.bindingVerifyValid = true ∨
        c.now - s.binding.bindingVerifyStart > 1000 * 60 * 5
    · rw [if_pos hg]
      dsimp only
      refine bindTail_ok s _ _ _ ?_ ?_ ?_ ?_ ?_ ?_ hk
      · simp [NoLeaveOut]
      · simp [NoEnter0Out]
      all_goals rfl
    · rw [if_neg hg]
      simp [NoLeaveOut, NoEnter0Out]
  · rw [if_neg hpa]
    by_cases hbt : e.what = .bindingTable
    · rw [if_pos hbt]
      by_cases hz1 : e.num = ZdpSuccess
      · rw [if_pos hz1]
        dsimp only
        refine bindTail_ok s _ _ _ ?_ ?_ ?_ ?_ ?_ ?_ hk
        · simp [NoLeaveOut]
        · simp [NoEnter0Out]
        all_goals rfl
      · rw [if_neg hz1]
        by_cases hz2 : e.num = ZdpNotSupported
        · rw [if_pos hz2]
          dsimp only
          refine bindTail_ok s _ _ _ ?_ ?_ ?_ ?_ ?_ ?_ hk
          · simp [NoLeaveOut]
          · simp [NoEnter0Out]
          all_goals rfl
        · rw [if_neg hz2]
          dsimp only
          refine bindTail_ok s _ _ _ ?_ ?_ ?_ ?_ ?_ ?_ hk
          · simp [NoLeaveOut]
          · simp [NoEnter0Out]
          all_goals rfl
    · rw [if_neg hbt]
      simp [NoLeaveOut, NoEnter0Out]

/-- `DEV_BindingTableVerifyHandler` invocation summary. -/
theorem btv_spec (c : Choice) (e : Event) (s : DeviceState)
    (hk : ∀ h, s.s1 = some h → BindH h) :
    (DEV_BindingTableVerifyHandler c e s).st.s0 = s.s0 ∧
    (DEV_BindingTableVerifyHandler c e s).st.s2 = s.s2 ∧
    (DEV_BindingTableVerifyHandler c e s).st.pollItems = s.pollItems ∧
    ((DEV_BindingTableVerifyHandler c e s).st.s1 = s.s1 ∨
      (DEV_BindingTableVerifyHandler c e s).st.s1 = some .binding) ∧
    NoLeaveOut (DEV_BindingTableVerifyHandler c e s).out ∧
    NoEnter0Out (DEV_BindingTableVerifyHandler c e s).out ∧
    (DEV_BindingTableVerifyHandler c e s).zdp = 0 := by
  unfold DEV_BindingTableVerifyHandler
  by_cases ht : e.what ≠ .bindingTick
  · rw [if_pos ht]
    simp [NoLeaveOut, NoEnter0Out]
  · rw [if_neg ht]
    rcases hn : s.node with _ | n
    · simp only [hn]
      simp [NoLeaveOut, NoEnter0Out]
    · simp only [hn]
      by_cases hend : s.binding.bindingIter ≥ n.bindingTableSize
      · rw [if_pos hend]
        refine bindTail_ok s _ _ _ ?_ ?_ ?_ ?_ ?_ ?_ hk
        · simp [NoLeaveOut]
        · simp [NoEnter0Out]
        all_goals rfl
      · rw [if_neg hend]
        simp [NoLeaveOut, NoEnter0Out]

/-- Uniform description of a top-level (non-`Idle`) handler invocation:
the sub-machine slots and the poll queue are untouched, and the level-0
slot either stays or is set to a top-level handler with the `StateEnter`
event emitted. -/
def TopSpecOut (s : DeviceState) (r : HOut) : Prop :=
  (r.st.s0 = s.s0 ∨ ∃ h, r.st.s0 = some h ∧ TopH h ∧ mkEnter .L0 ∈ r.out) ∧
  r.st.s1 = s.s1 ∧ r.st.s2 = s.s2 ∧ r.st.pollItems = s.pollItems ∧
  NoLeaveOut r.out

/-- An invocation that only touches fields outside the slots and queue. -/
theorem topSpecOut_keep (s sB : DeviceState) (o : List Event) (z : Nat)
    (hs0 : sB.s0 = s.s0) (hs1 : sB.s1 = s.s1) (hs2 : sB.s2 = s.s2)
    (hpi : sB.pollItems = s.pollItems) (ho : NoLeaveOut o) :
    TopSpecOut s { st := sB, out := o, zdp := z } :=
  ⟨Or.inl hs0, hs1, hs2, hpi, ho⟩

/-- The `d->setState(h); return` tail of a top-level handler whose
installed state has no `StateLeave` effect. -/
theorem topTail_ok (s₀ sB : DeviceState) (h0 h' : Handler)
    (extra : List Event) (z : Nat)
    (h0eq : s₀.s0 = some h0)
    (hd0 : h0 ≠ .idle ∧ h0 ≠ .pollNext ∧ h0 ≠ .pollBusy)
    (hth : TopH h')
    (hx1 : NoLeaveOut extra)
    (hs0 : sB.s0 = s₀.s0) (hs1 : sB.s1 = s₀.s1) (hs2 : sB.s2 = s₀.s2)
    (hpi : sB.pollItems = s₀.pollItems) :
    TopSpecOut s₀ (toState sB h' .L0 extra z) := by
  obtain ⟨a0, a1, a2, a3, a4, a5⟩ :=
    toState_L0_plain sB h0 h' extra z (hs0.trans h0eq) hd0
  rcases a4 with h | ⟨h, hsame⟩
  · refine ⟨Or.inr ⟨h', a0, hth, by rw [h]; exact List.mem_cons_self _ _⟩,
      a1.trans hs1, a2.trans hs2, a3.trans hpi, ?_⟩
    rw [h]
    intro ev hev
    rcases List.mem_cons.mp hev with hev | hev
    · rw [hev]; simp [mkEnter]
    · exact hx1 ev hev
  · refine ⟨Or.inl (a0.trans (hsame.symm.trans hs0)), a1.trans hs1,
      a2.trans hs2, a3.trans hpi, by rw [h]; exact hx1⟩

/-- `DEV_ZclRead` only touches `readResult`. -/
theorem zclRead_fields (c : Choice) (s : DeviceState) :
    (DEV_ZclRead c s).1.s0 = s.s0 ∧ (DEV_ZclRead c s).1.s1 = s.s1 ∧
    (DEV_ZclRead c s).1.s2 = s.s2 ∧
    (DEV_ZclRead c s).1.pollItems = s.pollItems := by
  unfold DEV_ZclRead
  split
  · exact ⟨rfl, rfl, rfl, rfl⟩
  · split <;> exact ⟨rfl, rfl, rfl, rfl⟩

theorem init_spec (env : Env) (c : Choice) (e : Event) (s : DeviceState)
    (hs0 : s.s0 = some .init) :
    TopSpecOut s (DEV_InitStateHandler env c e s) := by
  have hd0 : Handler.init ≠ .idle ∧ Handler.init ≠ .pollNext ∧
      Handler.init ≠ .pollBusy := by
    refine ⟨?_, ?_, ?_⟩ <;> intro h <;> cases h
  unfold DEV_InitStateHandler
  by_cases hse : e.what = .stateEnter
  · rw [if_pos hse]
    dsimp only
    by_cases hmask : s.deviceKey &&& coordMask = coordMask
    · rw [if_pos hmask]
      rcases hn : env.coreNode s.deviceKey with _ | n
      · simp only [hn]
        exact topSpecOut_keep s _ _ _ rfl rfl rfl rfl (by simp [NoLeaveOut])
      · simp only [hn]
        by_cases hnwk : n.nwk = 0x0000
        · rw [if_pos hnwk]
          refine topTail_ok s _ .init .dead _ _ hs0 hd0 (by simp [TopH])
            (by simp [NoLeaveOut]) rfl rfl rfl rfl
        · rw [if_neg hnwk]
          exact topSpecOut_keep s _ _ _ rfl rfl rfl rfl (by simp [NoLeaveOut])
    · rw [if_neg hmask]
      exact topSpecOut_keep s _ _ _ rfl rfl rfl rfl (by simp [NoLeaveOut])
  · rw [if_neg hse]
    by_cases hpl : e.what = .poll ∨ e.what = .awake ∨
        e.what = .configReachable ∨ e.what = .stateReachable ∨
        e.what = .stateTimeout ∨ e.what = .stateLastUpdated
    · rw [if_pos hpl]
      dsimp only
      by_cases hnone : s.node = none
      · rw [if_pos hnone]
        rcases hn : env.coreNode s.deviceKey with _ | n
        · simp only [hn]
          by_cases hzgp : s.deviceKey &&& zgpMask = 0
          · rw [if_pos hzgp]
            refine topTail_ok s _ .init .dead _ _ hs0 hd0 (by simp [TopH])
              (by simp [NoLeaveOut]) rfl rfl rfl rfl
          · rw [if_neg hzgp]
            exact topSpecOut_keep s _ _ _ rfl rfl rfl rfl
              (by simp [NoLeaveOut])
        · simp only [hn]
          split
          · refine topTail_ok s _ .init .nodeDescriptor _ _ hs0 hd0
              (by simp [TopH]) (by simp [NoLeaveOut]) rfl rfl rfl rfl
          · exact topSpecOut_keep s _ _ _ rfl rfl rfl rfl
              (by simp [NoLeaveOut])
      · rw [if_neg hnone]
        rcases hn : s.node with _ | n
        · exact absurd hn hnone
        · simp only [hn]
          split
          · refine topTail_ok s _ .init .nodeDescriptor _ _ hs0 hd0
              (by simp [TopH]) (by simp [NoLeaveOut]) rfl rfl rfl rfl
          · exact topSpecOut_keep s _ _ _ rfl rfl rfl rfl
              (by simp [NoLeaveOut])
    · rw [if_neg hpl]
      exact topSpecOut_keep s _ _ _ rfl rfl rfl rfl (by simp [NoLeaveOut])

theorem nodeDescr_spec (c : Choice) (e : Event) (s : DeviceState)
    (hs0 : s.s0 = some .nodeDescriptor) :
    TopSpecOut s (DEV_NodeDescriptorStateHandler c e s) := by
  have hd0 : Handler.nodeDescriptor ≠ .idle ∧
      Handler.nodeDescriptor ≠ .pollNext ∧
      Handler.nodeDescriptor ≠ .pollBusy := by
    refine ⟨?_, ?_, ?_⟩ <;> intro h <;> cases h
  unfold DEV_NodeDescriptorStateHandler
  by_cases hse : e.what = .stateEnter
  · rw [if_pos hse]
    rcases hn : s.node with _ | n
    · simp only [hn]
      exact topSpecOut_keep s _ _ _ rfl rfl rfl rfl (by simp [NoLeaveOut])
    · simp only [hn]
      by_cases hnd : n.nodeDescr.isSome = true
      · rw [if_pos hnd]
        refine topTail_ok s _ .nodeDescriptor .activeEndpoints _ _ hs0 hd0
          (by simp [TopH]) (by simp [NoLeaveOut]) rfl rfl rfl rfl
      · rw [if_neg hnd]
        by_cases hrch : ¬reachable s c.now = true
        · rw [if_pos hrch]
          refine topTail_ok s _ .nodeDescriptor .init _ _ hs0 hd0
            (by simp [TopH]) (by simp [NoLeaveOut]) rfl rfl rfl rfl
        · rw [if_neg hrch]
          dsimp only
          by_cases henq : c.zdpEnqueued = true
          · rw [if_pos henq]
            exact topSpecOut_keep s _ _ _ rfl rfl rfl rfl
              (by simp [NoLeaveOut])
          · rw [if_neg henq]
            refine topTail_ok s _ .nodeDescriptor .init _ _ hs0 hd0
              (by simp [TopH]) (by simp [NoLeaveOut]) rfl rfl rfl rfl
  · rw [if_neg hse]
    by_cases hac : e.what = .apsConfirm
    · rw [if_pos hac]
      by_cases hcond : s.zdpResult.apsReqId = e.apsId ∧
          e.apsStatus ≠ ApsSuccessStatus
      · rw [if_pos hcond]
        refine topTail_ok s _ .nodeDescriptor .init _ _ hs0 hd0
          (by simp [TopH]) (by simp [NoLeaveOut]) rfl rfl rfl rfl
      · rw [if_neg hcond]
        exact topSpecOut_keep s _ _ _ rfl rfl rfl rfl (by simp [NoLeaveOut])
    · rw [if_neg hac]
      by_cases hresp : e.what = .nodeDescriptor
      · rw [if_pos hresp]
        refine topTail_ok s _ .nodeDescriptor .init _ _ hs0 hd0
          (by simp [TopH]) (by simp [NoLeaveOut]) rfl rfl rfl rfl
      · rw [if_neg hresp]
        by_cases hto : e.what = .stateTimeout
        · rw [if_pos hto]
          refine topTail_ok s _ .nodeDescriptor .init _ _ hs0 hd0
            (by simp [TopH]) (by simp [NoLeaveOut]) rfl rfl rfl rfl
        · rw [if_neg hto]
          exact topSpecOut_keep s _ _ _ rfl rfl rfl rfl (by simp [NoLeaveOut])

theorem activeEp_spec (c : Choice) (e : Event) (s : DeviceState)
    (hs0 : s.s0 = some .activeEndpoints) :
    TopSpecOut s (DEV_ActiveEndpointsStateHandler c e s) := by
  have hd0 : Handler.activeEndpoints ≠ .idle ∧
      Handler.activeEndpoints ≠ .pollNext ∧
      Handler.activeEndpoints ≠ .pollBusy := by
    refine ⟨?_, ?_, ?_⟩ <;> intro h <;> cases h
  unfold DEV_ActiveEndpointsStateHandler
  by_cases hse : e.what = .stateEnter
  · rw [if_pos hse]
    rcases hn : s.node with _ | n
    · simp only [hn]
      exact topSpecOut_keep s _ _ _ rfl rfl rfl rfl (by simp [NoLeaveOut])
    · simp only [hn]
      by_cases hep : n.endpoints ≠ []
      · rw [if_pos hep]
        refine topTail_ok s _ .activeEndpoints .simpleDescriptor _ _ hs0 hd0
          (by simp [TopH]) (by simp [NoLeaveOut]) rfl rfl rfl rfl
      · rw [if_neg hep]
        by_cases hrch : ¬reachable s c.now = true
        · rw [if_pos hrch]
          refine topTail_ok s _ .activeEndpoints .init _ _ hs0 hd0
            (by simp [TopH]) (by simp [NoLeaveOut]) rfl rfl rfl rfl
        · rw [if_neg hrch]
          dsimp only
          by_cases henq : c.zdpEnqueued = true
          · rw [if_pos henq]
            exact topSpecOut_keep s _ _ _ rfl rfl rfl rfl
              (by simp [NoLeaveOut])
          · rw [if_neg henq]
            refine topTail_ok s _ .activeEndpoints .init _ _ hs0 hd0
              (by simp [TopH]) (by simp [NoLeaveOut]) rfl rfl rfl rfl
  · rw [if_neg hse]
    by_cases hac : e.what = .apsConfirm
    · rw [if_pos hac]
      by_cases hcond : s.zdpResult.apsReqId = e.apsId ∧
          e.apsStatus ≠ ApsSuccessStatus
      · rw [if_pos hcond]
        refine topTail_ok s _ .activeEndpoints .init _ _ hs0 hd0
          (by simp [TopH]) (by simp [NoLeaveOut]) rfl rfl rfl rfl
      · rw [if_neg hcond]
        exact topSpecOut_keep s _ _ _ rfl rfl rfl rfl (by simp [NoLeaveOut])
    · rw [if_neg hac]
      by_cases hresp : e.what = .activeEndpoints
      · rw [if_pos hresp]
        refine topTail_ok s _ .activeEndpoints .init _ _ hs0 hd0
          (by simp [TopH]) (by simp [NoLeaveOut]) rfl rfl rfl rfl
      · rw [if_neg hresp]
        by_cases hto : e.what = .stateTimeout
        · rw [if_pos hto]
          refine topTail_ok s _ .activeEndpoints .init _ _ hs0 hd0
            (by simp [TopH]) (by simp [NoLeaveOut]) rfl rfl rfl rfl
        · rw [if_neg hto]
          exact topSpecOut_keep s _ _ _ rfl rfl rfl rfl (by simp [NoLeaveOut])

theorem simpleDescr_spec (c : Choice) (e : Event) (s : DeviceState)
    (hs0 : s.s0 = some .simpleDescriptor) :
    TopSpecOut s (DEV_SimpleDescriptorStateHandler c e s) := by
  have hd0 : Handler.simpleDescriptor ≠ .idle ∧
      Handler.simpleDescriptor ≠ .pollNext ∧
      Handler.simpleDescriptor ≠ .pollBusy := by
    refine ⟨?_, ?_, ?_⟩ <;> intro h <;> cases h
  unfold DEV_SimpleDescriptorStateHandler
  by_cases hse : e.what = .stateEnter
  · rw [if_pos hse]
    rcases hn : s.node with _ | n
    · simp only [hn]
      exact topSpecOut_keep s _ _ _ rfl rfl rfl rfl (by simp [NoLeaveOut])
    · simp only [hn]
      by_cases hfetch : needFetchEp n = 0x00
      · rw [if_pos hfetch]
        refine topTail_ok s _ .simpleDescriptor .basicCluster _ _ hs0 hd0
          (by simp [TopH]) (by simp [NoLeaveOut]) rfl rfl rfl rfl
      · rw [if_neg hfetch]
        by_cases hrch : ¬reachable s c.now = true
        · rw [if_pos hrch]
          refine topTail_ok s _ .simpleDescriptor .init _ _ hs0 hd0
            (by simp [TopH]) (by simp [NoLeaveOut]) rfl rfl rfl rfl
        · rw [if_neg hrch]
          dsimp only
          by_cases henq : c.zdpEnqueued = true
          · rw [if_pos henq]
            exact topSpecOut_keep s _ _ _ rfl rfl rfl rfl
              (by simp [NoLeaveOut])
          · rw [if_neg henq]
            refine topTail_ok s _ .simpleDescriptor .init _ _ hs0 hd0
              (by simp [TopH]) (by simp [NoLeaveOut]) rfl rfl rfl rfl
  · rw [if_neg hse]
    by_cases hac : e.what = .apsConfirm
    · rw [if_pos hac]
      by_cases hcond : s.zdpResult.apsReqId = e.apsId ∧
          e.apsStatus ≠ ApsSuccessStatus
      · rw [if_pos hcond]
        refine topTail_ok s _ .simpleDescriptor .init _ _ hs0 hd0
          (by simp [TopH]) (by simp [NoLeaveOut]) rfl rfl rfl rfl
      · rw [if_neg hcond]
        exact topSpecOut_keep s _ _ _ rfl rfl rfl rfl (by simp [NoLeaveOut])
    · rw [if_neg hac]
      by_cases hresp : e.what = .simpleDescriptor
      · rw [if_pos hresp]
        refine topTail_ok s _ .simpleDescriptor .init _ _ hs0 hd0
          (by simp [TopH]) (by simp [NoLeaveOut]) rfl rfl rfl rfl
      · rw [if_neg hresp]
        by_cases hto : e.what = .stateTimeout
        · rw [if_pos hto]
          refine topTail_ok s _ .simpleDescriptor .init _ _ hs0 hd0
            (by simp [TopH]) (by simp [NoLeaveOut]) rfl rfl rfl rfl
        · rw [if_neg hto]
          exact topSpecOut_keep s _ _ _ rfl rfl rfl rfl (by simp [NoLeaveOut])

theorem getDDF_spec (e : Event) (s : DeviceState)
    (hs0 : s.s0 = some .getDeviceDescription) :
    TopSpecOut s (DEV_GetDeviceDescriptionHandler e s) := by
  have hd0 : Handler.getDeviceDescription ≠ .idle ∧
      Handler.getDeviceDescription ≠ .pollNext ∧
      Handler.getDeviceDescription ≠ .pollBusy := by
    refine ⟨?_, ?_, ?_⟩ <;> intro h <;> cases h
  unfold DEV_GetDeviceDescriptionHandler
  by_cases hse : e.what = .stateEnter
  · rw [if_pos hse]
    refine topSpecOut_keep s s _ _ rfl rfl rfl rfl ?_
    intro ev hev
    simp only [List.mem_singleton] at hev
    rw [hev]
    simp
  · rw [if_neg hse]
    by_cases hresp : e.what = .ddfInitResponse
    · rw [if_pos hresp]
      by_cases hone : e.num = 1
      · rw [if_pos hone]
        refine topTail_ok s _ .getDeviceDescription .idle _ _ hs0 hd0
          (by simp [TopH]) (by simp [NoLeaveOut]) rfl rfl rfl rfl
      · rw [if_neg hone]
        refine topTail_ok s _ .getDeviceDescription .dead _ _ hs0 hd0
          (by simp [TopH]) (by simp [NoLeaveOut]) rfl rfl rfl rfl
    · rw [if_neg hresp]
      exact topSpecOut_keep s _ _ _ rfl rfl rfl rfl (by simp [NoLeaveOut])

theorem dead_spec (e : Event) (s : DeviceState) :
    TopSpecOut s (DEV_DeadStateHandler e s) :=
  topSpecOut_keep s s [] 0 rfl rfl rfl rfl (by simp [NoLeaveOut])

/-- `DEV_ZclRead` only touches `readResult` (equation form). -/
theorem zclRead_fields2 (c : Choice) (s s2 : DeviceState) (enq : Bool)
    (h : DEV_ZclRead c s = (s2, enq)) :
    s2.s0 = s.s0 ∧ s2.s1 = s.s1 ∧ s2.s2 = s.s2 ∧
    s2.pollItems = s.pollItems := by
  have f := zclRead_fields c s
  rw [h] at f
  exact f

theorem basicCluster_spec (c : Choice) (e : Event) (s : DeviceState)
    (hs0 : s.s0 = some .basicCluster) :
    TopSpecOut s (DEV_BasicClusterStateHandler c e s) := by
  have hd0 : Handler.basicCluster ≠ .idle ∧
      Handler.basicCluster ≠ .pollNext ∧
      Handler.basicCluster ≠ .pollBusy := by
    refine ⟨?_, ?_, ?_⟩ <;> intro h <;> cases h
  unfold DEV_BasicClusterStateHandler
  by_cases hse : e.what = .stateEnter
  · rw [if_pos hse]
    dsimp only
    by_cases hman : (s.manuNameSet || c.fillManu) = true
    · rw [if_pos hman]
      by_cases hmod : (s.modelIdSet || c.fillModel) = true
      · rw [if_pos hmod]
        refine topTail_ok s _ .basicCluster .getDeviceDescription _ _ hs0 hd0
          (by simp [TopH]) (by simp [NoLeaveOut]) rfl rfl rfl rfl
      · rw [if_neg hmod]
        split
        next henq =>
          exact topSpecOut_keep s _ _ _ (zclRead_fields c _).1
            (zclRead_fields c _).2.1 (zclRead_fields c _).2.2.1
            (zclRead_fields c _).2.2.2 (by simp [NoLeaveOut])
        next henq =>
          refine topTail_ok s _ .basicCluster .init _ _ hs0 hd0
            (by simp [TopH]) (by simp [NoLeaveOut]) (zclRead_fields c _).1
            (zclRead_fields c _).2.1 (zclRead_fields c _).2.2.1
            (zclRead_fields c _).2.2.2
    · rw [if_neg hman]
      split
      next henq =>
        exact topSpecOut_keep s _ _ _ (zclRead_fields c _).1
          (zclRead_fields c _).2.1 (zclRead_fields c _).2.2.1
          (zclRead_fields c _).2.2.2 (by simp [NoLeaveOut])
      next henq =>
        refine topTail_ok s _ .basicCluster .init _ _ hs0 hd0
          (by simp [TopH]) (by simp [NoLeaveOut]) (zclRead_fields c _).1
          (zclRead_fields c _).2.1 (zclRead_fields c _).2.2.1
          (zclRead_fields c _).2.2.2
  · rw [if_neg hse]
    by_cases hac : e.what = .apsConfirm
    · rw [if_pos hac]
      by_cases hcond : s.readResult.apsReqId = e.apsId ∧
          e.apsStatus ≠ ApsSuccessStatus
      · rw [if_pos hcond]
        refine topTail_ok s _ .basicCluster .init _ _ hs0 hd0
          (by simp [TopH]) (by simp [NoLeaveOut]) rfl rfl rfl rfl
      · rw [if_neg hcond]
        exact topSpecOut_keep s _ _ _ rfl rfl rfl rfl (by simp [NoLeaveOut])
    · rw [if_neg hac]
      by_cases hresp : e.what = .attrManufacturerName ∨ e.what = .attrModelId
      · rw [if_pos hresp]
        refine topTail_ok s _ .basicCluster .init _ _ hs0 hd0
          (by simp [TopH]) (by simp [NoLeaveOut]) rfl rfl rfl rfl
      · rw [if_neg hresp]
        by_cases hto : e.what = .stateTimeout
        · rw [if_pos hto]
          refine topTail_ok s _ .basicCluster .init _ _ hs0 hd0
            (by simp [TopH]) (by simp [NoLeaveOut]) rfl rfl rfl rfl
        · rw [if_neg hto]
          exact topSpecOut_keep s _ _ _ rfl rfl rfl rfl (by simp [NoLeaveOut])

theorem forwardSub_none (env : Env) (c : Choice) (e : Event) (lvl : Lvl)
    (s : DeviceState) (h : getSlot s lvl = none) :
    forwardSub env c e lvl s = { st := s } := by
  unfold forwardSub
  rw [h]

/-- Forwarding an event to the level-1 slot. -/
theorem forwardSub_L1_spec (env : Env) (c : Choice) (e : Event)
    (s : DeviceState) (hb : ∀ h, s.s1 = some h → BindH h) :
    (forwardSub env c e .L1 s).st.s0 = s.s0 ∧
    (forwardSub env c e .L1 s).st.s2 = s.s2 ∧
    (forwardSub env c e .L1 s).st.pollItems = s.pollItems ∧
    ((forwardSub env c e .L1 s).st.s1 = s.s1 ∨
      (forwardSub env c e .L1 s).st.s1 = some .binding ∨
      (forwardSub env c e .L1 s).st.s1 = some .bindingTableVerify) ∧
    NoLeaveOut (forwardSub env c e .L1 s).out ∧
    NoEnter0Out (forwardSub env c e .L1 s).out ∧
    (forwardSub env c e .L1 s).zdp = 0 := by
  unfold forwardSub
  rcases hs1 : s.s1 with _ | h1
  · rw [show getSlot s .L1 = none from hs1]
    refine ⟨rfl, rfl, rfl, Or.inl hs1, ?_, ?_, rfl⟩ <;>
      simp [NoLeaveOut, NoEnter0Out]
  · rw [show getSlot s .L1 = some h1 from hs1]
    rcases hb h1 hs1 with h | h <;> subst h
    · obtain ⟨a0, a1, a2, a3, a4, a5, a6⟩ := binding_spec c e s hb
      refine ⟨a0, a1, a2, ?_, a4, a5, a6⟩
      rcases a3 with h | h
      · exact Or.inl (h.trans hs1)
      · exact Or.inr (Or.inr h)
    · obtain ⟨a0, a1, a2, a3, a4, a5, a6⟩ := btv_spec c e s hb
      refine ⟨a0, a1, a2, ?_, a4, a5, a6⟩
      rcases a3 with h | h
      · exact Or.inl (h.trans hs1)
      · exact Or.inr (Or.inl h)

/-- Forwarding an event to the level-2 slot. -/
theorem forwardSub_L2_spec (env : Env) (c : Choice) (e : Event)
    (s : DeviceState) (hp : ∀ h, s.s2 = some h → PollH h) :
    PollSpecOut env s (forwardSub env c e .L2 s) := by
  unfold forwardSub
  rcases hs2 : s.s2 with _ | h2
  · rw [show getSlot s .L2 = none from hs2]
    exact pollSpecOut_id env s
  · rw [show getSlot s .L2 = some h2 from hs2]
    rcases hp h2 hs2 with h | h | h <;> subst h
    · exact pollIdle_spec c e s env hp
    · exact pollNext_spec env c e s hs2 hp
    · exact pollBusy_spec c e s env hs2 hp

/-- `DEV_IdleStateHandler` on `StateEnter`: installs the two
sub-machines. -/
theorem idle_enter_spec (env : Env) (c : Choice) (e : Event)
    (s : DeviceState) (hse : e.what = .stateEnter)
    (hb : ∀ h, s.s1 = some h → BindH h)
    (hp : ∀ h, s.s2 = some h → PollH h) :
    (DEV_IdleStateHandler env c e s).st.s0 = s.s0 ∧
    (DEV_IdleStateHandler env c e s).st.s1 = some .binding ∧
    (DEV_IdleStateHandler env c e s).st.s2 = some .pollIdle ∧
    (DEV_IdleStateHandler env c e s).st.pollItems = s.pollItems ∧
    NoLeaveOut (DEV_IdleStateHandler env c e s).out ∧
    NoEnter0Out (DEV_IdleStateHandler env c e s).out ∧
    (DEV_IdleStateHandler env c e s).zdp = 0 := by
  unfold DEV_IdleStateHandler
  rw [if_pos hse]
  obtain ⟨a1, a2⟩ := setState_L1_bind s .binding hb
  obtain ⟨b0, b1, b2, b3, b4⟩ := setState_L2_poll
    (setState s (some .binding) .L1).1 .pollIdle
    (by intro h hh; rw [a1] at hh; exact hp h hh)
  refine ⟨?_, ?_, ?_, ?_, ?_, ?_, rfl⟩
  · exact b0.trans (by rw [a1])
  · exact b1.trans (by rw [a1])
  · exact b2
  · exact b3.trans (by rw [a1])
  · show NoLeaveOut ((setState s (some .binding) .L1).2 ++
      (setState (setState s (some .binding) .L1).1 (some .pollIdle) .L2).2)
    rcases a2 with h | h <;> rcases b4 with h2 | h2 <;> rw [h, h2] <;>
      simp [NoLeaveOut, mkEnter]
  · show NoEnter0Out ((setState s (some .binding) .L1).2 ++
      (setState (setState s (some .binding) .L1).1 (some .pollIdle) .L2).2)
    rcases a2 with h | h <;> rcases b4 with h2 | h2 <;> rw [h, h2] <;>
      simp [NoEnter0Out, mkEnter, Lvl.toNat]


/-- `DEV_IdleStateHandler` on any event other than `StateEnter` and
`StateLeave`: a `DDFReload` falls back to `Init` (clearing the
sub-machines through `Idle`'s synchronous leave); any other event is
forwarded to the two sub-machine levels. -/
theorem idle_other_spec (env : Env) (c : Choice) (e : Event)
    (s : DeviceState) (hns : e.what ≠ .stateEnter) (hnl : e.what ≠ .stateLeave)
    (hs0 : s.s0 = some .idle)
    (hb : ∀ h, s.s1 = some h → BindH h)
    (hp : ∀ h, s.s2 = some h → PollH h) :
    (e.what = .ddfReload →
      (DEV_IdleStateHandler env c e s).st.s0 = some .init ∧
      (DEV_IdleStateHandler env c e s).st.s1 = none ∧
      (DEV_IdleStateHandler env c e s).st.s2 = none ∧
      (DEV_IdleStateHandler env c e s).st.pollItems = s.pollItems ∧
      (DEV_IdleStateHandler env c e s).out = [mkEnter .L0] ∧
      (DEV_IdleStateHandler env c e s).zdp = 0) ∧
    (e.what ≠ .ddfReload →
      (DEV_IdleStateHandler env c e s).st.s0 = s.s0 ∧
      ((DEV_IdleStateHandler env c e s).st.s1 = s.s1 ∨
        (DEV_IdleStateHandler env c e s).st.s1 = some .binding ∨
        (DEV_IdleStateHandler env c e s).st.s1 = some .bindingTableVerify) ∧
      ((DEV_IdleStateHandler env c e s).st.s2 = s.s2 ∨
        (DEV_IdleStateHandler env c e s).st.s2 = some .pollIdle ∨
        (DEV_IdleStateHandler env c e s).st.s2 = some .pollNext ∨
        (DEV_IdleStateHandler env c e s).st.s2 = some .pollBusy) ∧
      QMove s.pollItems (DEV_IdleStateHandler env c e s).st.pollItems ∧
      (PollInv env s → PollInv env (DEV_IdleStateHandler env c e s).st) ∧
      NoLeaveOut (DEV_IdleStateHandler env c e s).out ∧
      NoEnter0Out (DEV_IdleStateHandler env c e s).out ∧
      (DEV_IdleStateHandler env c e s).zdp = 0) := by
  unfold DEV_IdleStateHandler
  rw [if_neg hns, if_neg hnl]
  constructor
  · -- DDFReload
    intro hrel
    rw [if_pos hrel]
    obtain ⟨d0, d1, d2, d3, d4⟩ := setState_L0_from_idle s .init hs0
      (by intro h; cases h)
    have hf1 : forwardSub env c e .L1 (setState s (some .init) .L0).1 =
        { st := (setState s (some .init) .L0).1 } :=
      forwardSub_none env c e .L1 _ (by show _ = _; exact d1)
    have hf2 : forwardSub env c e .L2 (setState s (some .init) .L0).1 =
        { st := (setState s (some .init) .L0).1 } :=
      forwardSub_none env c e .L2 _ (by show _ = _; exact d2)
    refine ⟨?_, ?_, ?_, ?_, ?_, ?_⟩
    · show (forwardSub env c e .L2 (forwardSub env c e .L1
        (setState s (some .init) .L0).1).st).st.s0 = some .init
      rw [hf1, hf2]
      exact d0
    · show (forwardSub env c e .L2 (forwardSub env c e .L1
        (setState s (some .init) .L0).1).st).st.s1 = none
      rw [hf1, hf2]
      exact d1
    · show (forwardSub env c e .L2 (forwardSub env c e .L1
        (setState s (some .init) .L0).1).st).st.s2 = none
      rw [hf1, hf2]
      exact d2
    · show (forwardSub env c e .L2 (forwardSub env c e .L1
        (setState s (some .init) .L0).1).st).st.pollItems = s.pollItems
      rw [hf1, hf2]
      exact d3
    · show ((setState s (some .init) .L0).2 ++
        (forwardSub env c e .L1 (setState s (some .init) .L0).1).out ++
        (forwardSub env c e .L2 (forwardSub env c e .L1
          (setState s (some .init) .L0).1).st).out) = [mkEnter .L0]
      rw [hf1, hf2, d4]
      rfl
    · show (0 + (forwardSub env c e .L1 (setState s (some .init) .L0).1).zdp +
        (forwardSub env c e .L2 (forwardSub env c e .L1
          (setState s (some .init) .L0).1).st).zdp) = 0
      rw [hf1, hf2]
      rfl
  · -- ordinary event: forward to both sub-machine levels
    intro hnrel
    rw [if_neg hnrel]
    obtain ⟨f0, f2, f3, f1d, f4, f5, f6⟩ := forwardSub_L1_spec env c e s hb
    have hp2 : ∀ h, (forwardSub env c e .L1 s).st.s2 = some h → PollH h := by
      intro h hh
      rw [f2] at hh
      exact hp h hh
    obtain ⟨g0, g1, g2d, gq, gi, g4, g5, g6⟩ :=
      forwardSub_L2_spec env c e (forwardSub env c e .L1 s).st hp2
    refine ⟨?_, ?_, ?_, ?_, ?_, ?_, ?_, ?_⟩
    · show (forwardSub env c e .L2
        (forwardSub env c e .L1 s).st).st.s0 = s.s0
      exact g0.trans f0
    · show (forwardSub env c e .L2 (forwardSub env c e .L1 s).st).st.s1 =
          s.s1 ∨ _ ∨ _
      rcases f1d with h | h | h
      · exact Or.inl (g1.trans h)
      · exact Or.inr (Or.inl (g1.trans h))
      · exact Or.inr (Or.inr (g1.trans h))
    · show (forwardSub env c e .L2 (forwardSub env c e .L1 s).st).st.s2 =
          s.s2 ∨ _ ∨ _ ∨ _
      rcases g2d with h | h | h | h
      · exact Or.inl (h.trans f2)
      · exact Or.inr (Or.inl h)
      · exact Or.inr (Or.inr (Or.inl h))
      · exact Or.inr (Or.inr (Or.inr h))
    · show QMove s.pollItems
        (forwardSub env c e .L2 (forwardSub env c e .L1 s).st).st.pollItems
      rw [← f3]
      exact gq
    · intro hpre
      show PollInv env
        (forwardSub env c e .L2 (forwardSub env c e .L1 s).st).st
      exact gi (pollInv_congr env f2 f3 hpre)
    · show NoLeaveOut ([] ++
        (forwardSub env c e .L1 s).out ++
        (forwardSub env c e .L2 (forwardSub env c e .L1 s).st).out)
      intro ev hev
      simp only [List.nil_append, List.mem_append] at hev
      rcases hev with h | h
      · exact f4 ev h
      · exact g4 ev h
    · show NoEnter0Out ([] ++
        (forwardSub env c e .L1 s).out ++
        (forwardSub env c e .L2 (forwardSub env c e .L1 s).st).out)
      intro ev hev
      simp only [List.nil_append, List.mem_append] at hev
      rcases hev with h | h
      · exact f5 ev h
      · exact g5 ev h
    · show (0 + (forwardSub env c e .L1 s).zdp +
        (forwardSub env c e .L2 (forwardSub env c e .L1 s).st).zdp) = 0
      rw [f6, g6]

end DeconzDevice
namespace DeconzDevice

/-- The inductive invariant of the event system: the slots hold handlers
of their own machine, the sub-machines are installed exactly while the
top level is in `Idle` (up to a pending `Idle` `StateEnter` event), the
poll queue satisfies `PollInv`, and the mailbox never carries a
`StateLeave`. -/
structure Inv (env : Env) (cfg : Config) : Prop where
  top : ∃ h, cfg.dev.s0 = some h ∧ TopH h
  bnd : ∀ h, cfg.dev.s1 = some h → BindH h ∧ cfg.dev.s0 = some .idle
  pol : ∀ h, cfg.dev.s2 = some h → PollH h ∧ cfg.dev.s0 = some .idle
  idleSub : cfg.dev.s0 = some .idle → hasEnter0 cfg.queue = false →
    cfg.dev.s1 ≠ none ∧ cfg.dev.s2 ≠ none
  pinv : PollInv env cfg.dev
  noLeaveQ : NoLeaveOut cfg.queue

theorem hasEnter0_append (a b : List Event) :
    hasEnter0 (a ++ b) = (hasEnter0 a || hasEnter0 b) := by
  unfold hasEnter0
  exact List.any_append

theorem hasEnter0_of_noEnter0 (l : List Event) (h : NoEnter0Out l) :
    hasEnter0 l = false := by
  unfold hasEnter0
  rw [List.any_eq_false]
  intro ev hev
  have := h ev hev
  by_cases h1 : ev.what = .stateEnter
  · simp [h1, this h1]
  · simp [h1]

theorem hasEnter0_cons_ne (e : Event) (q : List Event)
    (h : e.what = .stateEnter → e.num ≠ 0) :
    hasEnter0 (e :: q) = hasEnter0 q := by
  unfold hasEnter0
  rw [List.any_cons]
  by_cases h1 : e.what = .stateEnter
  · simp [h1, h h1]
  · simp [h1]

theorem noLeave_append (a b : List Event) (ha : NoLeaveOut a)
    (hb : NoLeaveOut b) : NoLeaveOut (a ++ b) := by
  intro ev hev
  rcases List.mem_append.mp hev with h | h
  · exact ha ev h
  · exact hb ev h

end DeconzDevice

namespace DeconzDevice

/-- The state-only part of the invariant. -/
def SInv (env : Env) (s : DeviceState) : Prop :=
  (∃ h, s.s0 = some h ∧ TopH h) ∧
  (∀ h, s.s1 = some h → BindH h ∧ s.s0 = some .idle) ∧
  (∀ h, s.s2 = some h → PollH h ∧ s.s0 = some .idle) ∧
  PollInv env s

/-- What one guarded dispatch preserves. -/
def RunOK (env : Env) (s : DeviceState) (r : HOut) : Prop :=
  (∃ h', r.st.s0 = some h' ∧ TopH h') ∧
  (∀ h', r.st.s1 = some h' → BindH h' ∧ r.st.s0 = some .idle) ∧
  (∀ h', r.st.s2 = some h' → PollH h' ∧ r.st.s0 = some .idle) ∧
  PollInv env r.st ∧
  NoLeaveOut r.out ∧
  (r.st.s0 = some .idle → NoEnter0Out r.out →
    (r.st.s1 ≠ none ∧ r.st.s2 ≠ none) ∨
    (s.s0 = some .idle ∧ (s.s1 ≠ none → r.st.s1 ≠ none) ∧
      (s.s2 ≠ none → r.st.s2 ≠ none)))

/-- A `TopSpecOut` invocation from a non-`Idle` top state is `RunOK`. -/
theorem topSpecOut_to_ok (env : Env) (s : DeviceState) (r : HOut)
    (h0 : Handler) (hs0 : s.s0 = some h0) (hTop : TopH h0)
    (hni : h0 ≠ .idle) (hsp : TopSpecOut s r) (hinv : SInv env s) :
    RunOK env s r := by
  obtain ⟨hd0, hd1, hd2, hd3, hd4⟩ := hsp
  obtain ⟨_, hb, hp, hpi⟩ := hinv
  refine ⟨?_, ?_, ?_, ?_, hd4, ?_⟩
  · rcases hd0 with h | ⟨h', he, ht, _⟩
    · exact ⟨h0, h.trans hs0, hTop⟩
    · exact ⟨h', he, ht⟩
  · intro h' hh
    rw [hd1] at hh
    exact absurd ((hb h' hh).2.symm.trans hs0) (by
      intro hcon
      exact hni (Option.some_injective _ hcon).symm)
  · intro h' hh
    rw [hd2] at hh
    exact absurd ((hp h' hh).2.symm.trans hs0) (by
      intro hcon
      exact hni (Option.some_injective _ hcon).symm)
  · exact pollInv_congr env hd2 hd3 hpi
  · intro hidle hne0
    rcases hd0 with h | ⟨h', _, _, hmem⟩
    · exfalso
      exact hni (Option.some_injective _ ((h.symm.trans hidle).symm.trans
        hs0)).symm
    · exfalso
      exact hne0 (mkEnter .L0) hmem rfl rfl

end DeconzDevice

namespace DeconzDevice

/-- A binding-machine invocation from `Idle` is `RunOK`. -/
theorem bindRun_to_ok (env : Env) (s : DeviceState) (r : HOut)
    (hs0 : r.st.s0 = s.s0) (hs2 : r.st.s2 = s.s2)
    (hpq : r.st.pollItems = s.pollItems)
    (hs1 : r.st.s1 = s.s1 ∨ ∃ hB, r.st.s1 = some hB ∧ BindH hB)
    (hL : NoLeaveOut r.out)
    (hidle : s.s0 = some .idle)
    (hinv : SInv env s) :
    RunOK env s r := by
  obtain ⟨⟨h0, h0e, h0t⟩, hb, hp, hpi⟩ := hinv
  refine ⟨⟨h0, hs0.trans h0e, h0t⟩, ?_, ?_,
    pollInv_congr env hs2 hpq hpi, hL, ?_⟩
  · intro h' hh
    rcases hs1 with he | ⟨hB, he, hBk⟩
    · rw [he] at hh
      exact ⟨(hb h' hh).1, hs0.trans (hb h' hh).2⟩
    · rw [he] at hh
      exact ⟨(Option.some_injective _ hh) ▸ hBk, hs0.trans hidle⟩
  · intro h' hh
    rw [hs2] at hh
    exact ⟨(hp h' hh).1, hs0.trans (hp h' hh).2⟩
  · intro _ _
    refine Or.inr ⟨hidle, ?_, ?_⟩
    · intro hn
      rcases hs1 with he | ⟨hB, he, _⟩
      · rw [he]; exact hn
      · rw [he]; simp
    · intro hn
      rw [hs2]; exact hn

/-- A poll-machine invocation from `Idle` is `RunOK`. -/
theorem pollRun_to_ok (env : Env) (s : DeviceState) (r : HOut)
    (hsp : PollSpecOut env s r)
    (hidle : s.s0 = some .idle)
    (hinv : SInv env s) :
    RunOK env s r := by
  obtain ⟨p0, p1, p2, pq, pimp, pL, pE, pz⟩ := hsp
  obtain ⟨⟨h0, h0e, h0t⟩, hb, hp, hpi⟩ := hinv
  refine ⟨⟨h0, p0.trans h0e, h0t⟩, ?_, ?_, pimp hpi, pL, ?_⟩
  · intro h' hh
    rw [p1] at hh
    exact ⟨(hb h' hh).1, p0.trans (hb h' hh).2⟩
  · intro h' hh
    rcases p2 with he | he | he | he
    · rw [he] at hh
      exact ⟨(hp h' hh).1, p0.trans (hp h' hh).2⟩
    · rw [he] at hh
      exact ⟨(Option.some_injective _ hh) ▸ (Or.inl rfl : PollH .pollIdle),
        p0.trans hidle⟩
    · rw [he] at hh
      exact ⟨(Option.some_injective _ hh) ▸
        (Or.inr (Or.inl rfl) : PollH .pollNext), p0.trans hidle⟩
    · rw [he] at hh
      exact ⟨(Option.some_injective _ hh) ▸
        (Or.inr (Or.inr rfl) : PollH .pollBusy), p0.trans hidle⟩
  · intro _ _
    refine Or.inr ⟨hidle, ?_, ?_⟩
    · intro hn
      rw [p1]; exact hn
    · intro hn
      rcases p2 with he | he | he | he
      · rw [he]; exact hn
      · rw [he]; simp
      · rw [he]; simp
      · rw [he]; simp

/-- Any guarded slot dispatch from an invariant state is `RunOK`: the
central preservation lemma over `runTop`. -/
theorem runTop_ok (env : Env) (c : Choice) (e : Event) (s : DeviceState)
    (h : Handler) (lvl : Lvl) (hslot : getSlot s lvl = some h)
    (hne : e.what ≠ .stateLeave) (hinv : SInv env s) :
    RunOK env s (runTop env c h e s) := by
  have hc := hinv
  obtain ⟨htop, hbnd, hpol, hpi⟩ := hc
  cases lvl
  case L0 =>
    have hs0 : s.s0 = some h := hslot
    have hht : TopH h := by
      obtain ⟨h0, h0e, h0t⟩ := htop
      have hq := h0e.symm.trans hs0
      exact (Option.some_injective _ hq) ▸ h0t
    have hb' : ∀ hh, s.s1 = some hh → BindH hh :=
      fun hh h2 => (hbnd hh h2).1
    have hp' : ∀ hh, s.s2 = some hh → PollH hh :=
      fun hh h2 => (hpol hh h2).1
    rcases hht with rfl | rfl | rfl | rfl | rfl | rfl | rfl | rfl
    · exact topSpecOut_to_ok env s _ _ hs0 (by simp [TopH])
        (by intro hh; cases hh) (init_spec env c e s hs0) hinv
    · exact topSpecOut_to_ok env s _ _ hs0 (by simp [TopH])
        (by intro hh; cases hh) (nodeDescr_spec c e s hs0) hinv
    · exact topSpecOut_to_ok env s _ _ hs0 (by simp [TopH])
        (by intro hh; cases hh) (activeEp_spec c e s hs0) hinv
    · exact topSpecOut_to_ok env s _ _ hs0 (by simp [TopH])
        (by intro hh; cases hh) (simpleDescr_spec c e s hs0) hinv
    · exact topSpecOut_to_ok env s _ _ hs0 (by simp [TopH])
        (by intro hh; cases hh) (basicCluster_spec c e s hs0) hinv
    · exact topSpecOut_to_ok env s _ _ hs0 (by simp [TopH])
        (by intro hh; cases hh) (getDDF_spec e s hs0) hinv
    · -- Idle
      show RunOK env s (DEV_IdleStateHandler env c e s)
      by_cases hse : e.what = .stateEnter
      · obtain ⟨i0, i1, i2, i3, i4, i5, i6⟩ :=
          idle_enter_spec env c e s hse hb' hp'
        refine ⟨⟨.idle, i0.trans hs0, by simp [TopH]⟩, ?_, ?_, ?_, i4, ?_⟩
        · intro h' hh
          rw [i1] at hh
          exact ⟨(Option.some_injective _ hh) ▸ (Or.inl rfl : BindH .binding),
            i0.trans hs0⟩
        · intro h' hh
          rw [i2] at hh
          exact ⟨(Option.some_injective _ hh) ▸ (Or.inl rfl : PollH .pollIdle),
            i0.trans hs0⟩
        · refine ⟨?_, ?_, ?_⟩
          · rw [i3]; exact hpi.1
          · rw [i3]; exact hpi.2.1
          · rw [i2]; intro hcon; exact absurd (Option.some_injective _ hcon)
              (by intro hq; cases hq)
        · intro _ _
          exact Or.inl ⟨by rw [i1]; simp, by rw [i2]; simp⟩
      · obtain ⟨hrel, hnorm⟩ := idle_other_spec env c e s hse hne hs0 hb' hp'
        by_cases hdr : e.what = .ddfReload
        · obtain ⟨c0, c1, c2, c3, c4, c5⟩ := hrel hdr
          refine ⟨⟨.init, c0, by simp [TopH]⟩, ?_, ?_, ?_, ?_, ?_⟩
          · intro h' hh; rw [c1] at hh; exact Option.noConfusion hh
          · intro h' hh; rw [c2] at hh; exact Option.noConfusion hh
          · refine ⟨?_, ?_, ?_⟩
            · rw [c3]; exact hpi.1
            · rw [c3]; exact hpi.2.1
            · rw [c2]; intro hcon; exact Option.noConfusion hcon
          · rw [c4]
            intro ev hev
            rw [List.mem_singleton] at hev
            rw [hev]; simp [mkEnter]
          · intro hid _
            rw [c0] at hid
            exact absurd (Option.some_injective _ hid) (by intro hq; cases hq)
        · obtain ⟨o0, o1, o2, oq, oi, oL, oE, oz⟩ := hnorm hdr
          refine ⟨⟨.idle, o0.trans hs0, by simp [TopH]⟩, ?_, ?_, oi hpi,
            oL, ?_⟩
          · intro h' hh
            rcases o1 with he | he | he
            · rw [he] at hh
              exact ⟨(hbnd h' hh).1, o0.trans (hbnd h' hh).2⟩
            · rw [he] at hh
              exact ⟨(Option.some_injective _ hh) ▸
                (Or.inl rfl : BindH .binding), o0.trans hs0⟩
            · rw [he] at hh
              exact ⟨(Option.some_injective _ hh) ▸
                (Or.inr rfl : BindH .bindingTableVerify), o0.trans hs0⟩
          · intro h' hh
            rcases o2 with he | he | he | he
            · rw [he] at hh
              exact ⟨(hpol h' hh).1, o0.trans (hpol h' hh).2⟩
            · rw [he] at hh
              exact ⟨(Option.some_injective _ hh) ▸
                (Or.inl rfl : PollH .pollIdle), o0.trans hs0⟩
            · rw [he] at hh
              exact ⟨(Option.some_injective _ hh) ▸
                (Or.inr (Or.inl rfl) : PollH .pollNext), o0.trans hs0⟩
            · rw [he] at hh
              exact ⟨(Option.some_injective _ hh) ▸
                (Or.inr (Or.inr rfl) : PollH .pollBusy), o0.trans hs0⟩
          · intro _ _
            refine Or.inr ⟨hs0, ?_, ?_⟩
            · intro hn
              rcases o1 with he | he | he
              · rw [he]; exact hn
              · rw [he]; simp
              · rw [he]; simp
            · intro hn
              rcases o2 with he | he | he | he
              · rw [he]; exact hn
              · rw [he]; simp
              · rw [he]; simp
              · rw [he]; simp
    · exact topSpecOut_to_ok env s _ _ hs0 (by simp [TopH])
        (by intro hh; cases hh) (dead_spec e s) hinv
  case L1 =>
    have hs1 : s.s1 = some h := hslot
    obtain ⟨hB, hidle⟩ := hbnd h hs1
    have hkb : ∀ hh, s.s1 = some hh → BindH hh :=
      fun hh h2 => (hbnd hh h2).1
    rcases hB with rfl | rfl
    · show RunOK env s (DEV_BindingHandler c e s)
      obtain ⟨b0, b2, bq, b1, bL, bE, bz⟩ := binding_spec c e s hkb
      refine bindRun_to_ok env s _ b0 b2 bq ?_ bL hidle hinv
      rcases b1 with he | he
      · exact Or.inl he
      · exact Or.inr ⟨_, he, Or.inr rfl⟩
    · show RunOK env s (DEV_BindingTableVerifyHandler c e s)
      obtain ⟨b0, b2, bq, b1, bL, bE, bz⟩ := btv_spec c e s hkb
      refine bindRun_to_ok env s _ b0 b2 bq ?_ bL hidle hinv
      rcases b1 with he | he
      · exact Or.inl he
      · exact Or.inr ⟨_, he, Or.inl rfl⟩
  case L2 =>
    have hs2 : s.s2 = some h := hslot
    obtain ⟨hP, hidle⟩ := hpol h hs2
    have hks : ∀ hh, s.s2 = some hh → PollH hh :=
      fun hh h2 => (hpol hh h2).1
    rcases hP with rfl | rfl | rfl
    · exact pollRun_to_ok env s _ (pollIdle_spec c e s env hks) hidle hinv
    · exact pollRun_to_ok env s _ (pollNext_spec env c e s hs2 hks) hidle hinv
    · exact pollRun_to_ok env s _ (pollBusy_spec c e s env hs2 hks) hidle hinv

end DeconzDevice

namespace DeconzDevice

theorem decodeLvl_num (n : Nat) (l : Lvl) (h : decodeLvl n = some l) :
    n = l.toNat := by
  rcases n with _ | _ | _ | m
  · cases Option.some_injective _ h
    rfl
  · cases Option.some_injective _ h
    rfl
  · cases Option.some_injective _ h
    rfl
  · exact Option.noConfusion h

theorem noEnter0_of_hasEnter0 (l : List Event) (h : hasEnter0 l = false) :
    NoEnter0Out l := by
  unfold hasEnter0 at h
  rw [List.any_eq_false] at h
  intro ev hev hse h0
  exact (by simpa using h ev hev : ¬(ev.what = .stateEnter ∧ ev.num = 0))
    ⟨hse, h0⟩

theorem noLeave_nil : NoLeaveOut ([] : List Event) :=
  fun ev hev => absurd hev (List.not_mem_nil ev)

theorem inv_sInv (env : Env) (cfg : Config) (h : Inv env cfg) :
    SInv env cfg.dev := ⟨h.top, h.bnd, h.pol, h.pinv⟩

theorem sInv_congr (env : Env) {s s' : DeviceState}
    (h0 : s'.s0 = s.s0) (h1 : s'.s1 = s.s1) (h2 : s'.s2 = s.s2)
    (hq : s'.pollItems = s.pollItems) (h : SInv env s) : SInv env s' := by
  obtain ⟨⟨hh, he, ht⟩, hb, hp, hpi⟩ := h
  refine ⟨⟨hh, h0.trans he, ht⟩, ?_, ?_, pollInv_congr env h2 hq hpi⟩
  · intro x hx
    have hx2 := hb x (h1.symm.trans hx)
    exact ⟨hx2.1, h0.trans hx2.2⟩
  · intro x hx
    have hx2 := hp x (h2.symm.trans hx)
    exact ⟨hx2.1, h0.trans hx2.2⟩

theorem stopTimer_fields (s : DeviceState) (lvl : Lvl) :
    (stopStateTimer s lvl).s0 = s.s0 ∧ (stopStateTimer s lvl).s1 = s.s1 ∧
    (stopStateTimer s lvl).s2 = s.s2 ∧
    (stopStateTimer s lvl).pollItems = s.pollItems := by
  cases lvl <;> exact ⟨rfl, rfl, rfl, rfl⟩

theorem handleEvent_se_none (env : Env) (c : Choice) (e : Event)
    (s : DeviceState)
    (hsesl : e.what = .stateEnter ∨ e.what = .stateLeave)
    (hdl : decodeLvl e.num = none) :
    handleEvent env c e .L0 s = { st := s } := by
  unfold handleEvent
  rw [if_pos hsesl]
  simp only [hdl]

theorem handleEvent_se_noslot (env : Env) (c : Choice) (e : Event)
    (s : DeviceState) (l : Lvl)
    (hsesl : e.what = .stateEnter ∨ e.what = .stateLeave)
    (hdl : decodeLvl e.num = some l) (hslot : getSlot s l = none) :
    handleEvent env c e .L0 s = { st := s } := by
  unfold handleEvent
  rw [if_pos hsesl]
  simp only [hdl, hslot]

theorem handleEvent_se_slot (env : Env) (c : Choice) (e : Event)
    (s : DeviceState) (l : Lvl) (hh : Handler)
    (hsesl : e.what = .stateEnter ∨ e.what = .stateLeave)
    (hdl : decodeLvl e.num = some l) (hslot : getSlot s l = some hh) :
    handleEvent env c e .L0 s = runTop env c hh e s := by
  unfold handleEvent
  rw [if_pos hsesl]
  simp only [hdl, hslot]

theorem handleEvent_plain_awake (env : Env) (c : Choice) (e : Event)
    (s : DeviceState) (hh : Handler)
    (hsesl : ¬(e.what = .stateEnter ∨ e.what = .stateLeave))
    (haw : e.what = .awake) (hslot : getSlot s .L0 = some hh) :
    handleEvent env c e .L0 s =
      runTop env c hh e { s with awakeValid := true, awakeStart := c.now } := by
  unfold handleEvent
  rw [if_neg hsesl]
  simp only [hslot]
  rw [if_pos ⟨haw, trivial⟩]

theorem handleEvent_plain (env : Env) (c : Choice) (e : Event)
    (s : DeviceState) (hh : Handler)
    (hsesl : ¬(e.what = .stateEnter ∨ e.what = .stateLeave))
    (hnaw : e.what ≠ .awake) (hslot : getSlot s .L0 = some hh) :
    handleEvent env c e .L0 s = runTop env c hh e s := by
  unfold handleEvent
  rw [if_neg hsesl]
  simp only [hslot]
  rw [if_neg (fun hc => hnaw hc.1)]

theorem step_deliver_cons (env : Env) (c : Choice) (cfg : Config)
    (e : Event) (rest : List Event) (hq : cfg.queue = e :: rest) :
    step env (.deliver c) cfg =
      ⟨(handleEvent env c e .L0 cfg.dev).st,
        rest ++ (handleEvent env c e .L0 cfg.dev).out⟩ := by
  unfold step stepFull
  rw [hq]

theorem step_deliver_nil (env : Env) (c : Choice) (cfg : Config)
    (hq : cfg.queue = []) : step env (.deliver c) cfg = cfg := by
  unfold step stepFull
  rw [hq]

end DeconzDevice

namespace DeconzDevice

/-- Delivering an event that leaves the device state untouched (and emits
nothing) preserves the invariant, provided it is not the pending level-0
`StateEnter`. -/
theorem inv_skip (env : Env) (cfg : Config) (h : Inv env cfg) (e : Event)
    (rest : List Event) (hq : cfg.queue = e :: rest)
    (hnum : e.what = .stateEnter → e.num ≠ 0) :
    Inv env ⟨cfg.dev, rest ++ []⟩ := by
  have hnlr : NoLeaveOut rest := fun ev hev =>
    h.noLeaveQ ev (by rw [hq]; exact List.mem_cons_of_mem _ hev)
  refine ⟨h.top, h.bnd, h.pol, ?_, h.pinv, ?_⟩
  · intro hid hqf
    have hqf2 : (hasEnter0 rest || hasEnter0 ([] : List Event)) = false := by
      rw [← hasEnter0_append]
      exact hqf
    rw [Bool.or_eq_false_iff] at hqf2
    have hpre : hasEnter0 cfg.queue = false := by
      rw [hq, hasEnter0_cons_ne e rest hnum]
      exact hqf2.1
    exact h.idleSub hid hpre
  · exact noLeave_append _ _ hnlr noLeave_nil

/-- Delivering an event through a `RunOK` dispatch preserves the
invariant, provided it is not the pending level-0 `StateEnter`.  `s'` is
the dispatch state (the device state, possibly with the awake timer
restarted). -/
theorem inv_dispatch (env : Env) (cfg : Config) (h : Inv env cfg)
    (e : Event) (rest : List Event) (hq : cfg.queue = e :: rest)
    (s' : DeviceState) (hf0 : s'.s0 = cfg.dev.s0) (hf1 : s'.s1 = cfg.dev.s1)
    (hf2 : s'.s2 = cfg.dev.s2) (r : HOut) (hrun : RunOK env s' r)
    (hnum : e.what = .stateEnter → e.num ≠ 0) :
    Inv env ⟨r.st, rest ++ r.out⟩ := by
  have hnlr : NoLeaveOut rest := fun ev hev =>
    h.noLeaveQ ev (by rw [hq]; exact List.mem_cons_of_mem _ hev)
  obtain ⟨rtop, rbnd, rpol, rpinv, routL, rsub⟩ := hrun
  refine ⟨rtop, rbnd, rpol, ?_, rpinv, noLeave_append _ _ hnlr routL⟩
  intro hid hqf
  have hqf2 : (hasEnter0 rest || hasEnter0 r.out) = false := by
    rw [← hasEnter0_append]
    exact hqf
  rw [Bool.or_eq_false_iff] at hqf2
  rcases rsub hid (noEnter0_of_hasEnter0 _ hqf2.2) with hcase | ⟨hpre0, m1, m2⟩
  · exact hcase
  · have hpre : hasEnter0 cfg.queue = false := by
      rw [hq, hasEnter0_cons_ne e rest hnum]
      exact hqf2.1
    have pre := h.idleSub (hf0.symm.trans hpre0) hpre
    exact ⟨m1 (by rw [hf1]; exact pre.1), m2 (by rw [hf2]; exact pre.2)⟩

/-- The invariant is preserved by every step of the event system. -/
theorem inv_step (env : Env) (cfg : Config) (h : Inv env cfg)
    (inp : StepInput) : Inv env (step env inp cfg) := by
  cases inp
  case setItems u =>
    exact ⟨h.top, h.bnd, h.pol, h.idleSub, h.pinv, h.noLeaveQ⟩
  case inject e =>
    by_cases hinj : injectable e = true
    · have hstep : step env (.inject e) cfg = ⟨cfg.dev, cfg.queue ++ [e]⟩ := by
        simp only [step, stepFull]
        rw [if_pos hinj]
      rw [hstep]
      have hprops : ¬e.what = .stateEnter ∧ ¬e.what = .stateLeave ∧
          ¬e.what = .stateTimeout := by
        simpa [injectable] using hinj
      refine ⟨h.top, h.bnd, h.pol, ?_, h.pinv, ?_⟩
      · intro hid hqf
        have hqf2 : (hasEnter0 cfg.queue || hasEnter0 [e]) = false := by
          rw [← hasEnter0_append]
          exact hqf
        rw [Bool.or_eq_false_iff] at hqf2
        exact h.idleSub hid hqf2.1
      · refine noLeave_append _ _ h.noLeaveQ ?_
        intro ev hev
        rw [List.mem_singleton] at hev
        rw [hev]
        exact hprops.2.1
    · have hstep : step env (.inject e) cfg = cfg := by
        simp only [step, stepFull]
        rw [if_neg hinj]
      rw [hstep]
      exact h
  case fireTimer lvl c =>
    by_cases harm : timerArmed cfg.dev lvl = true
    · have hsf := stopTimer_fields cfg.dev lvl
      rcases hsl : getSlot (stopStateTimer cfg.dev lvl) lvl with _ | hh
      · have hstep : step env (.fireTimer lvl c) cfg =
            ⟨stopStateTimer cfg.dev lvl, cfg.queue⟩ := by
          simp only [step, stepFull]
          rw [if_pos harm]
          rw [hsl]
        rw [hstep]
        refine ⟨?_, ?_, ?_, ?_, ?_, h.noLeaveQ⟩
        · obtain ⟨h0, he, ht⟩ := h.top
          exact ⟨h0, hsf.1.trans he, ht⟩
        · intro x hx
          have hx2 := h.bnd x (hsf.2.1.symm.trans hx)
          exact ⟨hx2.1, hsf.1.trans hx2.2⟩
        · intro x hx
          have hx2 := h.pol x (hsf.2.2.1.symm.trans hx)
          exact ⟨hx2.1, hsf.1.trans hx2.2⟩
        · intro hid hqf
          have pre := h.idleSub (hsf.1.symm.trans hid) hqf
          constructor
          · show (stopStateTimer cfg.dev lvl).s1 ≠ none
            rw [hsf.2.1]
            exact pre.1
          · show (stopStateTimer cfg.dev lvl).s2 ≠ none
            rw [hsf.2.2.1]
            exact pre.2
        · exact pollInv_congr env hsf.2.2.1 hsf.2.2.2 h.pinv
      · have hstep : step env (.fireTimer lvl c) cfg =
            ⟨(runTop env c hh (mkTimeout lvl) (stopStateTimer cfg.dev lvl)).st,
              cfg.queue ++ (runTop env c hh (mkTimeout lvl)
                (stopStateTimer cfg.dev lvl)).out⟩ := by
          simp only [step, stepFull]
          rw [if_pos harm]
          rw [hsl]
        rw [hstep]
        have hsi : SInv env (stopStateTimer cfg.dev lvl) :=
          sInv_congr env hsf.1 hsf.2.1 hsf.2.2.1 hsf.2.2.2 (inv_sInv env cfg h)
        have hrun := runTop_ok env c (mkTimeout lvl)
          (stopStateTimer cfg.dev lvl) hh lvl hsl (by simp [mkTimeout]) hsi
        obtain ⟨rtop, rbnd, rpol, rpinv, routL, rsub⟩ := hrun
        refine ⟨rtop, rbnd, rpol, ?_, rpinv,
          noLeave_append _ _ h.noLeaveQ routL⟩
        intro hid hqf
        have hqf2 : (hasEnter0 cfg.queue || hasEnter0 ((runTop env c hh
            (mkTimeout lvl) (stopStateTimer cfg.dev lvl)).out)) = false := by
          rw [← hasEnter0_append]
          exact hqf
        rw [Bool.or_eq_false_iff] at hqf2
        rcases rsub hid (noEnter0_of_hasEnter0 _ hqf2.2) with
          hcase | ⟨hpre0, m1, m2⟩
        · exact hcase
        · have pre := h.idleSub (hsf.1.symm.trans hpre0) hqf2.1
          exact ⟨m1 (by rw [hsf.2.1]; exact pre.1),
            m2 (by rw [hsf.2.2.1]; exact pre.2)⟩
    · have hstep : step env (.fireTimer lvl c) cfg = cfg := by
        simp only [step, stepFull]
        rw [if_neg harm]
      rw [hstep]
      exact h
  case deliver c =>
    rcases hq : cfg.queue with _ | ⟨e, rest⟩
    · rw [step_deliver_nil env c cfg hq]
      exact h
    · have hensl : e.what ≠ .stateLeave :=
        h.noLeaveQ e (by rw [hq]; exact List.mem_cons_self _ _)
      have hsi : SInv env cfg.dev := inv_sInv env cfg h
      by_cases hsesl : e.what = .stateEnter ∨ e.what = .stateLeave
      · have hse : e.what = .stateEnter := by
          rcases hsesl with hh | hh
          · exact hh
          · exact absurd hh hensl
        rcases hdl : decodeLvl e.num with _ | l
        · -- level payload out of range: undefined slot, modelled as no-op
          rw [step_deliver_cons env c cfg e rest hq,
            handleEvent_se_none env c e cfg.dev hsesl hdl]
          have hnum : e.num ≠ 0 := by
            intro h0
            rw [h0] at hdl
            exact absurd hdl (by decide)
          exact inv_skip env cfg h e rest hq (fun _ => hnum)
        · rcases hslot : getSlot cfg.dev l with _ | hh
          · rw [step_deliver_cons env c cfg e rest hq,
              handleEvent_se_noslot env c e cfg.dev l hsesl hdl hslot]
            have hnum := decodeLvl_num _ _ hdl
            cases l
            · obtain ⟨h0, he0, _⟩ := h.top
              rw [show getSlot cfg.dev .L0 = cfg.dev.s0 from rfl, he0] at hslot
              exact Option.noConfusion hslot
            · exact inv_skip env cfg h e rest hq
                (fun _ => by rw [hnum]; decide)
            · exact inv_skip env cfg h e rest hq
                (fun _ => by rw [hnum]; decide)
          · rw [step_deliver_cons env c cfg e rest hq,
              handleEvent_se_slot env c e cfg.dev l hh hsesl hdl hslot]
            have hnum := decodeLvl_num _ _ hdl
            cases l
            · have hs0 : cfg.dev.s0 = some hh := hslot
              have hnlr : NoLeaveOut rest := fun ev hev =>
                h.noLeaveQ ev (by rw [hq]; exact List.mem_cons_of_mem _ hev)
              by_cases hhid : hh = Handler.idle
              · subst hhid
                have hrun := runTop_ok env c e cfg.dev .idle .L0 hslot hensl hsi
                obtain ⟨rtop, rbnd, rpol, rpinv, routL, rsub⟩ := hrun
                obtain ⟨i0, i1, i2, i3, i4, i5, i6⟩ :=
                  idle_enter_spec env c e cfg.dev hse
                    (fun x hx => (h.bnd x hx).1) (fun x hx => (h.pol x hx).1)
                refine ⟨rtop, rbnd, rpol, ?_, rpinv,
                  noLeave_append _ _ hnlr routL⟩
                intro _ _
                constructor
                · show (runTop env c Handler.idle e cfg.dev).st.s1 ≠ none
                  have e1 : (runTop env c Handler.idle e cfg.dev).st.s1 =
                      some .binding := i1
                  rw [e1]
                  simp
                · show (runTop env c Handler.idle e cfg.dev).st.s2 ≠ none
                  have e2 : (runTop env c Handler.idle e cfg.dev).st.s2 =
                      some .pollIdle := i2
                  rw [e2]
                  simp
              · have hrun := runTop_ok env c e cfg.dev hh .L0 hslot hensl hsi
                obtain ⟨rtop, rbnd, rpol, rpinv, routL, rsub⟩ := hrun
                refine ⟨rtop, rbnd, rpol, ?_, rpinv,
                  noLeave_append _ _ hnlr routL⟩
                intro hid hqf
                have hqf2 : (hasEnter0 rest ||
                    hasEnter0 (runTop env c hh e cfg.dev).out) = false := by
                  rw [← hasEnter0_append]
                  exact hqf
                rw [Bool.or_eq_false_iff] at hqf2
                rcases rsub hid (noEnter0_of_hasEnter0 _ hqf2.2) with
                  hcase | ⟨hpre0, m1, m2⟩
                · exact hcase
                · exact absurd (Option.some_injective _
                    (hs0.symm.trans hpre0)) hhid
            · exact inv_dispatch env cfg h e rest hq cfg.dev rfl rfl rfl _
                (runTop_ok env c e cfg.dev hh .L1 hslot hensl hsi)
                (fun _ => by rw [hnum]; decide)
            · exact inv_dispatch env cfg h e rest hq cfg.dev rfl rfl rfl _
                (runTop_ok env c e cfg.dev hh .L2 hslot hensl hsi)
                (fun _ => by rw [hnum]; decide)
      · have hnse : e.what ≠ .stateEnter := fun hh => hsesl (Or.inl hh)
        obtain ⟨h0, he0, ht0⟩ := h.top
        have hslot0 : getSlot cfg.dev .L0 = some h0 := he0
        by_cases haw : e.what = .awake
        · rw [step_deliver_cons env c cfg e rest hq,
            handleEvent_plain_awake env c e cfg.dev h0 hsesl haw hslot0]
          have hsia : SInv env { cfg.dev with awakeValid := true, awakeStart := c.now } := sInv_congr env rfl rfl rfl rfl hsi
          have hslot0a : getSlot { cfg.dev with awakeValid := true, awakeStart := c.now } .L0 = some h0 := hslot0
          exact inv_dispatch env cfg h e rest hq _ rfl rfl rfl _
            (runTop_ok env c e _ h0 .L0 hslot0a hensl hsia)
            (fun hh => absurd hh hnse)
        · rw [step_deliver_cons env c cfg e rest hq,
            handleEvent_plain env c e cfg.dev h0 hsesl haw hslot0]
          exact inv_dispatch env cfg h e rest hq cfg.dev rfl rfl rfl _
            (runTop_ok env c e cfg.dev h0 .L0 hslot0 hensl hsi)
            (fun hh => absurd hh hnse)

end DeconzDevice

namespace DeconzDevice

/-- The freshly constructed device satisfies the invariant. -/
theorem inv_initial (env : Env) (key : Nat) : Inv env (initialConfig key) := by
  refine ⟨⟨.init, rfl, Or.inl rfl⟩, ?_, ?_, ?_, ?_, ?_⟩
  · intro x hx
    exact Option.noConfusion hx
  · intro x hx
    exact Option.noConfusion hx
  · intro hid _
    exact absurd (Option.some_injective _ hid) (by intro hc; cases hc)
  · refine ⟨?_, ?_, ?_⟩
    · intro it hit
      exact absurd hit (List.not_mem_nil it)
    · intro it hit
      exact absurd hit (List.not_mem_nil it)
    · intro hcon
      exact Option.noConfusion hcon
  · intro ev hev
    have hev2 : ev ∈ [mkEnter .L0] := hev
    rw [List.mem_singleton] at hev2
    rw [hev2]
    simp [mkEnter]

/-- Every reachable configuration satisfies the invariant. -/
theorem reach_inv (env : Env) (key : Nat) (cfg : Config)
    (h : Reach env key cfg) : Inv env cfg := by
  induction h with
  | base => exact inv_initial env key
  | next hr inp ih => exact inv_step env _ ih inp

theorem reach_runSteps_of (env : Env) (key : Nat) (cfg : Config)
    (h : Reach env key cfg) (l : List StepInput) :
    Reach env key (runSteps env cfg l) := by
  induction l generalizing cfg with
  | nil => exact h
  | cons inp rest ih => exact ih (step env inp cfg) (Reach.next h inp)

/-- Running any input list from the initial configuration stays within
`Reach`. -/
theorem reach_runSteps (env : Env) (key : Nat) (l : List StepInput) :
    Reach env key (runSteps env (initialConfig key) l) :=
  reach_runSteps_of env key _ Reach.base l

end DeconzDevice

namespace DeconzDevice

/-- A device parked in `Dead` with cleared sub-machine slots. -/
def DeadCfg (cfg : Config) : Prop :=
  cfg.dev.s0 = some .dead ∧ cfg.dev.s1 = none ∧ cfg.dev.s2 = none

/-- `Device::handleEvent` is inert in a dead configuration. -/
theorem handleEvent_dead (env : Env) (c : Choice) (e : Event)
    (s : DeviceState)
    (h0 : s.s0 = some .dead) (h1 : s.s1 = none) (h2 : s.s2 = none) :
    (handleEvent env c e .L0 s).st.s0 = some .dead ∧
    (handleEvent env c e .L0 s).st.s1 = none ∧
    (handleEvent env c e .L0 s).st.s2 = none ∧
    (handleEvent env c e .L0 s).out = [] ∧
    (handleEvent env c e .L0 s).zdp = 0 := by
  by_cases hsesl : e.what = .stateEnter ∨ e.what = .stateLeave
  · rcases hdl : decodeLvl e.num with _ | l
    · rw [handleEvent_se_none env c e s hsesl hdl]
      exact ⟨h0, h1, h2, rfl, rfl⟩
    · cases l
      · rw [handleEvent_se_slot env c e s .L0 .dead hsesl hdl h0]
        exact ⟨h0, h1, h2, rfl, rfl⟩
      · rw [handleEvent_se_noslot env c e s .L1 hsesl hdl h1]
        exact ⟨h0, h1, h2, rfl, rfl⟩
      · rw [handleEvent_se_noslot env c e s .L2 hsesl hdl h2]
        exact ⟨h0, h1, h2, rfl, rfl⟩
  · by_cases haw : e.what = .awake
    · rw [handleEvent_plain_awake env c e s .dead hsesl haw h0]
      exact ⟨h0, h1, h2, rfl, rfl⟩
    · rw [handleEvent_plain env c e s .dead hsesl haw h0]
      exact ⟨h0, h1, h2, rfl, rfl⟩

/-- `Dead` is absorbing, and no step out of it issues a ZDP request. -/
theorem dead_absorb (env : Env) (inp : StepInput) (cfg : Config)
    (h : DeadCfg cfg) :
    DeadCfg (step env inp cfg) ∧ (stepFull env inp cfg).2 = 0 := by
  obtain ⟨h0, h1, h2⟩ := h
  cases inp
  case setItems u =>
    exact ⟨⟨h0, h1, h2⟩, rfl⟩
  case inject e =>
    by_cases hinj : injectable e = true
    · have hstep : stepFull env (.inject e) cfg =
          (⟨cfg.dev, cfg.queue ++ [e]⟩, 0) := by
        simp only [stepFull]
        rw [if_pos hinj]
      constructor
      · show DeadCfg (stepFull env (.inject e) cfg).1
        rw [hstep]
        exact ⟨h0, h1, h2⟩
      · rw [hstep]
    · have hstep : stepFull env (.inject e) cfg = (cfg, 0) := by
        simp only [stepFull]
        rw [if_neg hinj]
      constructor
      · show DeadCfg (stepFull env (.inject e) cfg).1
        rw [hstep]
        exact ⟨h0, h1, h2⟩
      · rw [hstep]
  case fireTimer lvl c =>
    by_cases harm : timerArmed cfg.dev lvl = true
    · cases lvl
      · have hsl : getSlot (stopStateTimer cfg.dev .L0) .L0 = some .dead := h0
        have hstep : stepFull env (.fireTimer .L0 c) cfg =
            (⟨stopStateTimer cfg.dev .L0, cfg.queue ++ []⟩, 0) := by
          simp only [stepFull]
          rw [if_pos harm, hsl]
          rfl
        constructor
        · show DeadCfg (stepFull env (.fireTimer .L0 c) cfg).1
          rw [hstep]
          exact ⟨h0, h1, h2⟩
        · rw [hstep]
      · have hsl : getSlot (stopStateTimer cfg.dev .L1) .L1 = none := h1
        have hstep : stepFull env (.fireTimer .L1 c) cfg =
            (⟨stopStateTimer cfg.dev .L1, cfg.queue⟩, 0) := by
          simp only [stepFull]
          rw [if_pos harm, hsl]
        constructor
        · show DeadCfg (stepFull env (.fireTimer .L1 c) cfg).1
          rw [hstep]
          exact ⟨h0, h1, h2⟩
        · rw [hstep]
      · have hsl : getSlot (stopStateTimer cfg.dev .L2) .L2 = none := h2
        have hstep : stepFull env (.fireTimer .L2 c) cfg =
            (⟨stopStateTimer cfg.dev .L2, cfg.queue⟩, 0) := by
          simp only [stepFull]
          rw [if_pos harm, hsl]
        constructor
        · show DeadCfg (stepFull env (.fireTimer .L2 c) cfg).1
          rw [hstep]
          exact ⟨h0, h1, h2⟩
        · rw [hstep]
    · have hstep : stepFull env (.fireTimer lvl c) cfg = (cfg, 0) := by
        simp only [stepFull]
        rw [if_neg harm]
      constructor
      · show DeadCfg (stepFull env (.fireTimer lvl c) cfg).1
        rw [hstep]
        exact ⟨h0, h1, h2⟩
      · rw [hstep]
  case deliver c =>
    rcases hq : cfg.queue with _ | ⟨e, rest⟩
    · have hstep : stepFull env (.deliver c) cfg = (cfg, 0) := by
        simp only [stepFull]
        rw [hq]
      constructor
      · show DeadCfg (stepFull env (.deliver c) cfg).1
        rw [hstep]
        exact ⟨h0, h1, h2⟩
      · rw [hstep]
    · obtain ⟨d0, d1, d2, dout, dzdp⟩ := handleEvent_dead env c e cfg.dev h0 h1 h2
      have hstep : stepFull env (.deliver c) cfg =
          (⟨(handleEvent env c e .L0 cfg.dev).st,
            rest ++ (handleEvent env c e .L0 cfg.dev).out⟩,
           (handleEvent env c e .L0 cfg.dev).zdp) := by
        simp only [stepFull]
        rw [hq]
      constructor
      · show DeadCfg (stepFull env (.deliver c) cfg).1
        rw [hstep]
        exact ⟨d0, d1, d2⟩
      · rw [hstep]
        exact dzdp

/-- No ZDP request is ever issued from a dead configuration. -/
theorem zdpCount_dead (env : Env) (cfg : Config) (h : DeadCfg cfg)
    (l : List StepInput) : zdpCount env cfg l = 0 := by
  induction l generalizing cfg with
  | nil => rfl
  | cons inp rest ih =>
    have hd := dead_absorb env inp cfg h
    show (stepFull env inp cfg).2 + zdpCount env (step env inp cfg) rest = 0
    rw [hd.2, ih _ hd.1]

end DeconzDevice

namespace DeconzDevice

/-- `Init` on `StateEnter` for a key carrying the dresden elektronik MAC
prefix whose core node has network address `0x0000`: the device is sent to
`Dead`, the sub-machine slots are untouched and no ZDP request is
issued. -/
theorem init_enter_coordinator (env : Env) (c : Choice) (e : Event)
    (s : DeviceState) (n : ZNode)
    (hse : e.what = .stateEnter) (hs0 : s.s0 = some .init)
    (hmask : s.deviceKey &&& coordMask = coordMask)
    (hnode : env.coreNode s.deviceKey = some n) (hnwk : n.nwk = 0) :
    (DEV_InitStateHandler env c e s).st.s0 = some .dead ∧
    (DEV_InitStateHandler env c e s).st.s1 = s.s1 ∧
    (DEV_InitStateHandler env c e s).st.s2 = s.s2 ∧
    (DEV_InitStateHandler env c e s).zdp = 0 := by
  unfold DEV_InitStateHandler
  rw [if_pos hse]
  dsimp only
  rw [if_pos hmask]
  simp only [hnode]
  rw [if_pos hnwk]
  have ht := toState_L0_plain
    { s with zdpResult := {}, node := some n } .init .dead [] 0 hs0
    (by refine ⟨?_, ?_, ?_⟩ <;> intro hh <;> cases hh)
  exact ⟨ht.1, ht.2.1, ht.2.2.1, ht.2.2.2.2.2⟩

/-- `Init` on a polling-class event with no cached node, no core node and a
key whose upper 32 bits are zero (a Green Power device): the device is sent
to `Dead`. -/
theorem init_poll_zgp (env : Env) (c : Choice) (e : Event) (s : DeviceState)
    (hev : e.what = .poll ∨ e.what = .awake ∨ e.what = .configReachable ∨
      e.what = .stateReachable ∨ e.what = .stateTimeout ∨
      e.what = .stateLastUpdated)
    (hs0 : s.s0 = some .init)
    (hnode : s.node = none) (hlook : env.coreNode s.deviceKey = none)
    (hzgp : s.deviceKey &&& zgpMask = 0) :
    (DEV_InitStateHandler env c e s).st.s0 = some .dead := by
  have hnse : ¬e.what = .stateEnter := by
    rcases hev with h | h | h | h | h | h <;> rw [h] <;> decide
  unfold DEV_InitStateHandler
  rw [if_neg hnse, if_pos hev]
  dsimp only
  rw [if_pos hnode]
  dsimp only
  simp only [hlook]
  rw [if_pos hzgp]
  exact (toState_L0_plain { s with node := none }
    .init .dead [] 0 hs0
    (by refine ⟨?_, ?_, ?_⟩ <;> intro hh <;> cases hh)).1

end DeconzDevice

namespace DeconzDevice

/-- A sample device key: upper 32 bits non-zero, without the dresden
elektronik MAC prefix. -/
def k1 : Nat := 0x100000000

/-- The core node backing `k1` in the sample environment. -/
def node1 : ZNode :=
  { nwk := 0x1234, ext := 0xAB, nodeDescr := some ⟨true⟩, endpoints := [1],
    simpleDescrs := [⟨1, 0x0101, [0x0000]⟩], bindingTableSize := 0 }

/-- A sample environment: `k1` is backed by `node1`; the read-function
table has an entry for every `readParameters` key except `5`. -/
def env1 : Env :=
  { coreNode := fun k => if k = k1 then some node1 else none,
    readFn := fun p => if p = 5 then none else some () }

/-- Drive `k1` from construction to the `Idle` transition: initial
`StateEnter`, an `Awake`, the ZDP verification chain, the basic-cluster
fill, the DDF init handshake. -/
def trace1 : List StepInput :=
  [.deliver {}, .inject { what := .awake }, .deliver {}, .deliver {},
   .deliver {}, .deliver {}, .deliver { fillManu := true, fillModel := true },
   .deliver {}, .deliver {},
   .inject { what := .ddfInitResponse, num := 1 }, .deliver {}]

/-- The configuration reached by `trace1`: the top level has just moved to
`Idle`, whose `StateEnter` is still in the mailbox, so neither sub-machine
is installed yet. -/
def cfg11 : Config := runSteps env1 (initialConfig k1) trace1

/-- Continue `trace1` into `Idle` and the poll machine: deliver the `Idle`
`StateEnter`, a `Poll` tick scanned into one item with `readParameters`
`5` (which has no read function), and the binding/poll sub-machine
events. -/
def trace2 : List StepInput :=
  trace1 ++ [.deliver {}, .deliver {}, .deliver {},
    .inject { what := .poll }, .deliver { pollScan := [(7, 5)] },
    .deliver {}, .deliver {}]

/-- The configuration reached by `trace2`: the poll machine is about to
enter `PollNext` with the function-less item queued. -/
def cfg18 : Config := runSteps env1 (initialConfig k1) trace2

end DeconzDevice

namespace DeconzDevice

/-- An environment with no core nodes at all. -/
def envEmpty : Env := { coreNode := fun _ => none, readFn := fun _ => some () }

/-- A key carrying the dresden elektronik MAC prefix. -/
def k2 : Nat := 0x00212E0000000002

/-- A coordinator node: network address `0x0000`. -/
def nodeC : ZNode :=
  { nwk := 0, ext := 0, nodeDescr := none, endpoints := [],
    simpleDescrs := [], bindingTableSize := 0 }

/-- `k2` is backed by the coordinator node. -/
def envCoord : Env :=
  { coreNode := fun k => if k = k2 then some nodeC else none,
    readFn := fun _ => none }

/-- `k1` (no dresden elektronik prefix) is backed by the coordinator
node. -/
def envCoord0 : Env :=
  { coreNode := fun k => if k = k1 then some nodeC else none,
    readFn := fun _ => none }

/-- A device in `Idle`/`BindingIdle` whose binding table was verified at
time 0. -/
def sBind : DeviceState :=
  { deviceKey := k1, s0 := some .idle, s1 := some .binding,
    binding := { bindingVerifyValid := true, bindingVerifyStart := 0 } }

/-- A `BindingTable` event reporting `ZdpSuccess`. -/
def eBindTable : Event := { what := .bindingTable, num := ZdpSuccess }

/-- A step 1000 ms after `sBind`'s last verification. -/
def cBind : Choice := { now := 1000 }

/-- A device sitting in `GetDeviceDescription`. -/
def sGetDDF : DeviceState := { deviceKey := k1, s0 := some .getDeviceDescription }

/-- The `BindingTableVerify` transition tail of `DEV_BindingHandler`. -/
theorem c4_tail (sB : DeviceState) (hk : ∀ h, sB.s1 = some h → BindH h) :
    (toState sB .bindingTableVerify .L1 [{ what := .bindingTick }] 0).st.s1 =
      some .bindingTableVerify ∧
    (toState sB .bindingTableVerify .L1
      [{ what := .bindingTick }] 0).st.binding = sB.binding := by
  obtain ⟨h1, h2, h3⟩ := toState_L1_bind sB .bindingTableVerify
    [{ what := .bindingTick }] 0 hk
  rw [h1]
  exact ⟨rfl, rfl⟩

end DeconzDevice

namespace DeconzDevice

/-- C1 (amended): at every reachable configuration exactly one handler is
installed at level 0; an installed level-1 or level-2 handler implies the
top level is `Idle`; and when the top level is `Idle` with no pending
level-0 `StateEnter` in the mailbox, both sub-machine slots are installed.
The unqualified "iff" of the original claim fails in the window between
`setState(DEV_IdleStateHandler)` and the delivery of its asynchronous
`StateEnter`. -/
theorem C1_spec (env : Env) (key : Nat) (cfg : Config)
    (h : Reach env key cfg) :
    cfg.dev.s0 ≠ none ∧
    (∀ hh, cfg.dev.s1 = some hh → cfg.dev.s0 = some .idle) ∧
    (∀ hh, cfg.dev.s2 = some hh → cfg.dev.s0 = some .idle) ∧
    (cfg.dev.s0 = some .idle → hasEnter0 cfg.queue = false →
      cfg.dev.s1 ≠ none ∧ cfg.dev.s2 ≠ none) := by
  have hi := reach_inv env key cfg h
  refine ⟨?_, ?_, ?_, hi.idleSub⟩
  · obtain ⟨hh, he, _⟩ := hi.top
    rw [he]
    simp
  · intro hh h2
    exact (hi.bnd hh h2).2
  · intro hh h2
    exact (hi.pol hh h2).2

/-- C1 witness: the amended invariant evaluated at the initial
configuration of `k1`. -/
theorem C1_witness : (initialConfig k1).dev.s0 ≠ none :=
  (C1_spec env1 k1 (initialConfig k1) Reach.base).1

/-- C1 counterexample: after `trace1` the device `k1` reaches a
configuration whose top level is `Idle` while both sub-machine slots are
still empty (the `Idle` `StateEnter` is still in the mailbox), refuting
the original "non-empty iff `Idle`". -/
theorem C1_counterexample :
    ¬(∀ cfg, Reach env1 k1 cfg →
      ((cfg.dev.s1 ≠ none ∧ cfg.dev.s2 ≠ none) ↔
        cfg.dev.s0 = some .idle)) := by
  intro hall
  have hr : Reach env1 k1 cfg11 := reach_runSteps env1 k1 trace1
  have h2 := (hall cfg11 hr).2 (by decide)
  exact absurd h2.1 (by decide)

/-- The removal discipline the original C2 claims for the poll queue,
following the specification's words: an item leaves the queue only on a
successfully confirmed read (`ApsConfirm` status `0x00`) or when its retry
count has reached the cap. -/
def RemovalOnlyOnSuccessOrCap (env : Env) (key : Nat) : Prop :=
  ∀ cfg inp, Reach env key cfg →
    ∀ it, it ∈ cfg.dev.pollItems →
      it ∉ (step env inp cfg).dev.pollItems →
      (∃ c e rest, inp = StepInput.deliver c ∧ cfg.queue = e :: rest ∧
        e.what = .apsConfirm ∧ e.apsStatus = ApsSuccessStatus) ∨
      MaxPollItemRetries ≤ it.retry + 1

/-- Any guarded slot dispatch from an invariant state moves the poll
queue by one of the `QMove` moves: unchanged, one or two items popped
from the front, the head's retry incremented by one below the cap, or a
fresh scan of retry-0 items.  No move lowers the retry count of an item
that stays in the queue. -/
theorem runTop_qmove (env : Env) (c : Choice) (e : Event) (s : DeviceState)
    (h : Handler) (lvl : Lvl) (hslot : getSlot s lvl = some h)
    (hne : e.what ≠ .stateLeave) (hinv : SInv env s) :
    QMove s.pollItems (runTop env c h e s).st.pollItems := by
  have hc := hinv
  obtain ⟨htop, hbnd, hpol, hpi⟩ := hc
  cases lvl
  case L0 =>
    have hs0 : s.s0 = some h := hslot
    have hht : TopH h := by
      obtain ⟨h0, h0e, h0t⟩ := htop
      have hq := h0e.symm.trans hs0
      exact (Option.some_injective _ hq) ▸ h0t
    have hb' : ∀ hh, s.s1 = some hh → BindH hh :=
      fun hh h2 => (hbnd hh h2).1
    have hp' : ∀ hh, s.s2 = some hh → PollH hh :=
      fun hh h2 => (hpol hh h2).1
    rcases hht with rfl | rfl | rfl | rfl | rfl | rfl | rfl | rfl
    · exact Or.inl (init_spec env c e s hs0).2.2.2.1
    · exact Or.inl (nodeDescr_spec c e s hs0).2.2.2.1
    · exact Or.inl (activeEp_spec c e s hs0).2.2.2.1
    · exact Or.inl (simpleDescr_spec c e s hs0).2.2.2.1
    · exact Or.inl (basicCluster_spec c e s hs0).2.2.2.1
    · exact Or.inl (getDDF_spec e s hs0).2.2.2.1
    · by_cases hse : e.what = .stateEnter
      · exact Or.inl (idle_enter_spec env c e s hse hb' hp').2.2.2.1
      · obtain ⟨hrel, hnorm⟩ := idle_other_spec env c e s hse hne hs0 hb' hp'
        by_cases hdr : e.what = .ddfReload
        · exact Or.inl (hrel hdr).2.2.2.1
        · exact (hnorm hdr).2.2.2.1
    · exact Or.inl (dead_spec e s).2.2.2.1
  case L1 =>
    have hs1 : s.s1 = some h := hslot
    have hkb : ∀ hh, s.s1 = some hh → BindH hh :=
      fun hh h2 => (hbnd hh h2).1
    obtain ⟨hB, _⟩ := hbnd h hs1
    rcases hB with rfl | rfl
    · exact Or.inl (binding_spec c e s hkb).2.2.1
    · exact Or.inl (btv_spec c e s hkb).2.2.1
  case L2 =>
    have hs2 : s.s2 = some h := hslot
    have hks : ∀ hh, s.s2 = some hh → PollH hh :=
      fun hh h2 => (hpol hh h2).1
    obtain ⟨hP, _⟩ := hpol h hs2
    rcases hP with rfl | rfl | rfl
    · exact (pollIdle_spec c e s env hks).2.2.2.1
    · exact (pollNext_spec env c e s hs2 hks).2.2.2.1
    · exact (pollBusy_spec c e s env hs2 hks).2.2.2.1

/-- Every step of the event system moves the poll queue of a reachable
configuration by one of the `QMove` moves. -/
theorem step_qmove (env : Env) (key : Nat) (cfg : Config) (inp : StepInput)
    (h : Reach env key cfg) :
    QMove cfg.dev.pollItems (step env inp cfg).dev.pollItems := by
  have hi := reach_inv env key cfg h
  have hsi : SInv env cfg.dev := inv_sInv env cfg hi
  cases inp
  case setItems u =>
    exact Or.inl rfl
  case inject e =>
    by_cases hinj : injectable e = true
    · have hstep : step env (.inject e) cfg = ⟨cfg.dev, cfg.queue ++ [e]⟩ := by
        simp only [step, stepFull]
        rw [if_pos hinj]
      rw [hstep]
      exact Or.inl rfl
    · have hstep : step env (.inject e) cfg = cfg := by
        simp only [step, stepFull]
        rw [if_neg hinj]
      rw [hstep]
      exact Or.inl rfl
  case fireTimer lvl c =>
    by_cases harm : timerArmed cfg.dev lvl = true
    · have hsf := stopTimer_fields cfg.dev lvl
      rcases hsl : getSlot (stopStateTimer cfg.dev lvl) lvl with _ | hh
      · have hstep : step env (.fireTimer lvl c) cfg =
            ⟨stopStateTimer cfg.dev lvl, cfg.queue⟩ := by
          simp only [step, stepFull]
          rw [if_pos harm]
          rw [hsl]
        rw [hstep]
        exact Or.inl hsf.2.2.2
      · have hstep : step env (.fireTimer lvl c) cfg =
            ⟨(runTop env c hh (mkTimeout lvl) (stopStateTimer cfg.dev lvl)).st,
              cfg.queue ++ (runTop env c hh (mkTimeout lvl)
                (stopStateTimer cfg.dev lvl)).out⟩ := by
          simp only [step, stepFull]
          rw [if_pos harm]
          rw [hsl]
        rw [hstep]
        have hsis : SInv env (stopStateTimer cfg.dev lvl) :=
          sInv_congr env hsf.1 hsf.2.1 hsf.2.2.1 hsf.2.2.2 hsi
        have hq := runTop_qmove env c (mkTimeout lvl)
          (stopStateTimer cfg.dev lvl) hh lvl hsl (by simp [mkTimeout]) hsis
        rw [hsf.2.2.2] at hq
        exact hq
    · have hstep : step env (.fireTimer lvl c) cfg = cfg := by
        simp only [step, stepFull]
        rw [if_neg harm]
      rw [hstep]
      exact Or.inl rfl
  case deliver c =>
    rcases hq : cfg.queue with _ | ⟨e, rest⟩
    · rw [step_deliver_nil env c cfg hq]
      exact Or.inl rfl
    · have hensl : e.what ≠ .stateLeave :=
        hi.noLeaveQ e (by rw [hq]; exact List.mem_cons_self _ _)
      rw [step_deliver_cons env c cfg e rest hq]
      by_cases hsesl : e.what = .stateEnter ∨ e.what = .stateLeave
      · rcases hdl : decodeLvl e.num with _ | l
        · rw [handleEvent_se_none env c e cfg.dev hsesl hdl]
          exact Or.inl rfl
        · rcases hslot : getSlot cfg.dev l with _ | hh
          · rw [handleEvent_se_noslot env c e cfg.dev l hsesl hdl hslot]
            exact Or.inl rfl
          · rw [handleEvent_se_slot env c e cfg.dev l hh hsesl hdl hslot]
            exact runTop_qmove env c e cfg.dev hh l hslot hensl hsi
      · obtain ⟨h0, he0, _⟩ := hi.top
        have hslot0 : getSlot cfg.dev .L0 = some h0 := he0
        by_cases haw : e.what = .awake
        · rw [handleEvent_plain_awake env c e cfg.dev h0 hsesl haw hslot0]
          have hsia : SInv env { cfg.dev with awakeValid := true, awakeStart := c.now } := sInv_congr env rfl rfl rfl rfl hsi
          have hslot0a : getSlot { cfg.dev with awakeValid := true, awakeStart := c.now } .L0 = some h0 := hslot0
          exact runTop_qmove env c e _ h0 .L0 hslot0a hensl hsia
        · rw [handleEvent_plain env c e cfg.dev h0 hsesl haw hslot0]
          exact runTop_qmove env c e cfg.dev h0 .L0 hslot0 hensl hsi

/-- C2 (amended): every queued poll item's retry count stays strictly
below `MaxPollItemRetries` (hence within `0 ≤ retryCount ≤ 3`); an item
whose read parameters have no registered read function only ever sits in
the queue with retry count zero; and the retry count is non-decreasing
over an item's lifetime: every step moves the queue by one of the `QMove`
moves — unchanged, one or two items popped from the front, the head's
retry incremented by one below the cap, or a fresh scan of new retry-0
items — none of which lowers the retry count of an item that stays in
the queue.  Items are, however, also discarded for other reasons than
success or the cap (see the counterexample). -/
theorem C2_spec (env : Env) (key : Nat) (cfg : Config) (inp : StepInput)
    (h : Reach env key cfg) :
    (∀ it ∈ cfg.dev.pollItems, it.retry < MaxPollItemRetries ∧
      (env.readFn it.readParameters = none → it.retry = 0)) ∧
    QMove cfg.dev.pollItems (step env inp cfg).dev.pollItems := by
  have hi := reach_inv env key cfg h
  refine ⟨?_, step_qmove env key cfg inp h⟩
  intro it hit
  exact ⟨hi.pinv.1 it hit, fun hn => hi.pinv.2.1 it hit hn⟩

/-- C2 witness: the bound evaluated on the queued item of `cfg18`, and
the `QMove` move performed by the next delivery. -/
theorem C2_witness :
    ((⟨7, 5, 0⟩ : PollItem).retry < MaxPollItemRetries ∧
      (env1.readFn (⟨7, 5, 0⟩ : PollItem).readParameters = none →
        (⟨7, 5, 0⟩ : PollItem).retry = 0)) ∧
    QMove cfg18.dev.pollItems
      (step env1 (.deliver {}) cfg18).dev.pollItems :=
  ⟨(C2_spec env1 k1 cfg18 (.deliver {})
      (reach_runSteps env1 k1 trace2)).1 ⟨7, 5, 0⟩ (by decide),
   (C2_spec env1 k1 cfg18 (.deliver {})
      (reach_runSteps env1 k1 trace2)).2⟩

/-- C2 counterexample: in `cfg18` the queued item `⟨7, 5, 0⟩` (retry 0,
no read function) is dropped by the next delivered event — the poll
machine's `StateEnter`, not a successful `ApsConfirm` — refuting "removed
exactly when its read succeeds or its retryCount reaches the cap". -/
theorem C2_counterexample : ¬RemovalOnlyOnSuccessOrCap env1 k1 := by
  intro hall
  have hr : Reach env1 k1 cfg18 := reach_runSteps env1 k1 trace2
  have hrem := hall cfg18 (.deliver {}) hr ⟨7, 5, 0⟩ (by decide) (by decide)
  rcases hrem with ⟨c, e, rest, _, hqe, hconf, _⟩ | hcap
  · have h1 : cfg18.queue.head? = some e := by rw [hqe]; rfl
    have h2 : cfg18.queue.head? = some (mkEnter .L2) := by decide
    have he : e = mkEnter .L2 := Option.some_injective _ (h1.symm.trans h2)
    rw [he] at hconf
    exact absurd hconf (by decide)
  · exact absurd hcap (by decide)

/-- C3: `Device::reachable` returns true exactly when the last `Awake`
was within `MinMacPollRxOn` ms, or the node descriptor says
receiver-on-when-idle and the stored `Reachable` item is true, or the
device is marked non-sleeper and the stored `Reachable` item is true. -/
theorem C3_spec (s : DeviceState) (now : Nat) :
    reachable s now = true ↔
      (lastAwakeMs s now < MinMacPollRxOn ∨
       ((∃ n nd, s.node = some n ∧ n.nodeDescr = some nd ∧
           nd.receiverOnWhenIdle = true) ∧ s.itemReachable = true) ∨
       (s.itemSleeper = false ∧ s.itemReachable = true)) := by
  have hiff : ((s.node.bind (fun x => x.nodeDescr)).elim false
      (fun nd => nd.receiverOnWhenIdle) = true) ↔
      (∃ n nd, s.node = some n ∧ n.nodeDescr = some nd ∧
        nd.receiverOnWhenIdle = true) := by
    rcases hn : s.node with _ | n
    · simp [Option.bind, hn]
    · rcases hdd : n.nodeDescr with _ | nd
      · simp [Option.bind, hn, hdd]
      · simp [Option.bind, hn, hdd]
  unfold reachable
  by_cases h1 : lastAwakeMs s now < MinMacPollRxOn
  · rw [if_pos h1]
    simp [h1]
  · rw [if_neg h1]
    by_cases h2 : (s.node.bind (fun x => x.nodeDescr)).elim false
        (fun nd => nd.receiverOnWhenIdle) = true
    · rw [if_pos h2]
      constructor
      · intro hr
        exact Or.inr (Or.inl ⟨hiff.mp h2, hr⟩)
      · intro hdis
        rcases hdis with hdis | ⟨_, hr⟩ | ⟨_, hr⟩
        · exact absurd hdis h1
        · exact hr
        · exact hr
    · rw [if_neg h2]
      by_cases h3 : (!s.itemSleeper) = true
      · rw [if_pos h3]
        have hsl : s.itemSleeper = false := by simpa using h3
        constructor
        · intro hr
          exact Or.inr (Or.inr ⟨hsl, hr⟩)
        · intro hdis
          rcases hdis with hdis | ⟨hex, _⟩ | ⟨_, hr⟩
          · exact absurd hdis h1
          · exact absurd (hiff.mpr hex) h2
          · exact hr
      · rw [if_neg h3]
        have hsl : s.itemSleeper = true := by simpa using h3
        constructor
        · intro hr
          exact absurd hr (by decide)
        · intro hdis
          rcases hdis with hdis | ⟨hex, _⟩ | ⟨hslf, _⟩
          · exact absurd hdis h1
          · exact absurd (hiff.mpr hex) h2
          · rw [hsl] at hslf
            exact absurd hslf (by decide)

/-- C4 (amended): on `Poll`/`Awake` within the 5-minute window the binding
machine is a strict no-op; a `BindingTable` event records Mgmt_Bind
support from the carried ZDP status, but — the branch falling through —
it also unconditionally re-enters `BindingTableVerify`, regardless of the
5-minute window.  The original "without causing a transition" is
refuted by the counterexample. -/
theorem C4_spec (c : Choice) (e : Event) (s : DeviceState)
    (hk : ∀ h, s.s1 = some h → BindH h) :
    (e.what = .poll ∨ e.what = .awake →
      s.binding.bindingVerifyValid = true →
      c.now - s.binding.bindingVerifyStart ≤ 1000 * 60 * 5 →
      DEV_BindingHandler c e s = { st := s }) ∧
    (e.what = .bindingTable → e.num = ZdpSuccess →
      (DEV_BindingHandler c e s).st.binding.mgmtBindSupported = true) ∧
    (e.what = .bindingTable → e.num = ZdpNotSupported →
      (DEV_BindingHandler c e s).st.binding.mgmtBindSupported = false) ∧
    (e.what = .bindingTable →
      (DEV_BindingHandler c e s).st.s1 = some .bindingTableVerify) := by
  have hnpa : e.what = .bindingTable → ¬(e.what = .poll ∨ e.what = .awake) := by
    intro hbt
    rw [hbt]
    decide
  refine ⟨?_, ?_, ?_, ?_⟩
  · intro hpa hv hrec
    unfold DEV_BindingHandler
    rw [if_pos hpa]
    rw [if_neg (by
      rintro (hc | hc)
      · exact hc hv
      · omega)]
  · intro hbt hnum
    unfold DEV_BindingHandler
    rw [if_neg (hnpa hbt), if_pos hbt]
    dsimp only
    rw [if_pos hnum]
    refine Eq.trans (congrArg BindingContext.mgmtBindSupported
      (c4_tail _ ?_).2) ?_
    · intro h hh
      exact hk h hh
    · rfl
  · intro hbt hnum
    have hns : ¬e.num = ZdpSuccess := by
      rw [hnum]
      decide
    unfold DEV_BindingHandler
    rw [if_neg (hnpa hbt), if_pos hbt]
    dsimp only
    rw [if_neg hns, if_pos hnum]
    refine Eq.trans (congrArg BindingContext.mgmtBindSupported
      (c4_tail _ ?_).2) ?_
    · intro h hh
      exact hk h hh
    · rfl
  · intro hbt
    unfold DEV_BindingHandler
    rw [if_neg (hnpa hbt), if_pos hbt]
    dsimp only
    by_cases h1 : e.num = ZdpSuccess
    · rw [if_pos h1]
      refine (c4_tail _ ?_).1
      intro h hh
      exact hk h hh
    · rw [if_neg h1]
      by_cases h2 : e.num = ZdpNotSupported
      · rw [if_pos h2]
        refine (c4_tail _ ?_).1
        intro h hh
        exact hk h hh
      · rw [if_neg h2]
        refine (c4_tail _ ?_).1
        intro h hh
        exact hk h hh

/-- C4 witness: the no-op inside the window on `Poll`, and the
`BindingTable` transition, both at `sBind`. -/
theorem C4_witness :
    DEV_BindingHandler cBind { what := .poll } sBind = { st := sBind } ∧
    (DEV_BindingHandler cBind eBindTable sBind).st.binding.mgmtBindSupported
      = true :=
  ⟨(C4_spec cBind { what := .poll } sBind
      (fun h hh => (Option.some_injective _ hh) ▸ (Or.inl rfl))).1
      (Or.inl rfl) (by decide) (by decide),
   (C4_spec cBind eBindTable sBind
      (fun h hh => (Option.some_injective _ hh) ▸ (Or.inl rfl))).2.1
      rfl rfl⟩

/-- C4 counterexample: `sBind` was verified 1000 ms ago (well inside the
5-minute window), yet a `BindingTable` event still moves the binding
machine into `BindingTableVerify`, refuting "BindingTable events only
record Mgmt_Bind support without causing a transition". -/
theorem C4_counterexample :
    sBind.binding.bindingVerifyValid = true ∧
    cBind.now - sBind.binding.bindingVerifyStart ≤ 1000 * 60 * 5 ∧
    (DEV_BindingHandler cBind eBindTable sBind).st.s1 =
      some .bindingTableVerify := by decide

/-- C5: when `PollNext` (on `StateEnter`/`StateTimeout`, device reachable)
finds a head item whose read parameters have no read function, exactly
that item is popped — the tail, including every retry count, is untouched
— no event is emitted, and the level-2 slot is unchanged (the machine
stays in `PollNext`).  `PollInv` (which holds at every reachable
configuration) makes the popped item's retry 0, so the dead-slot
`retry++` cap test cannot pop a second item. -/
theorem C5_spec (env : Env) (c : Choice) (e : Event) (s : DeviceState)
    (hd : PollItem) (tl : List PollItem)
    (hset : e.what = .stateEnter ∨ e.what = .stateTimeout)
    (hreach : reachable s c.now = true)
    (hq : s.pollItems = hd :: tl)
    (hfn : env.readFn hd.readParameters = none)
    (hpi : PollInv env s) :
    (DEV_PollNextStateHandler env c e s).st.pollItems = tl ∧
    (DEV_PollNextStateHandler env c e s).st.s2 = s.s2 ∧
    (DEV_PollNextStateHandler env c e s).out = [] := by
  have hzero : hd.retry = 0 :=
    hpi.2.1 hd (by rw [hq]; exact List.mem_cons_self _ _) hfn
  unfold DEV_PollNextStateHandler
  rw [if_pos hset]
  dsimp only
  rw [if_pos hreach]
  simp only [hq, hfn]
  rw [if_neg (by decide : ¬((false : Bool) = true))]
  rw [if_pos trivial]
  rw [if_neg (by rw [hzero]; decide)]
  exact ⟨rfl, rfl, rfl⟩

/-- C5 witness: the pop evaluated at `cfg18`'s device state. -/
theorem C5_witness :
    (DEV_PollNextStateHandler env1 {} (mkEnter .L2) cfg18.dev).st.pollItems
      = [] ∧
    (DEV_PollNextStateHandler env1 {} (mkEnter .L2) cfg18.dev).st.s2 =
      cfg18.dev.s2 ∧
    (DEV_PollNextStateHandler env1 {} (mkEnter .L2) cfg18.dev).out = [] :=
  C5_spec env1 {} (mkEnter .L2) cfg18.dev ⟨7, 5, 0⟩ []
    (Or.inl rfl) (by decide) (by decide) (by decide)
    (reach_inv env1 k1 cfg18 (reach_runSteps env1 k1 trace2)).pinv

/-- C6 (amended): the Green Power check does not run on `StateEnter` (see
the counterexample); it sits in the `Poll`/`Awake`/`RConfigReachable`/
`RStateReachable`/`StateTimeout`/`RStateLastUpdated` branch of
`DEV_InitStateHandler`: there, a device with no cached and no core node
whose key's upper 32 bits are zero is sent to `Dead`. -/
theorem C6_spec (env : Env) (c : Choice) (e : Event) (s : DeviceState)
    (hev : e.what = .poll ∨ e.what = .awake ∨ e.what = .configReachable ∨
      e.what = .stateReachable ∨ e.what = .stateTimeout ∨
      e.what = .stateLastUpdated)
    (hs0 : s.s0 = some .init)
    (hnode : s.node = none) (hlook : env.coreNode s.deviceKey = none)
    (hzgp : s.deviceKey &&& zgpMask = 0) :
    (DEV_InitStateHandler env c e s).st.s0 = some .dead :=
  init_poll_zgp env c e s hev hs0 hnode hlook hzgp

/-- C6 witness: a `Poll` event kills the node-less ZGP device with key
`1`. -/
theorem C6_witness :
    (DEV_InitStateHandler envEmpty {} { what := .poll }
      { deviceKey := 1, s0 := some .init }).st.s0 = some .dead :=
  C6_spec envEmpty {} { what := .poll } { deviceKey := 1, s0 := some .init }
    (Or.inl rfl) rfl rfl rfl (by decide)

/-- C6 counterexample: delivering `StateEnter` to `Init` for the
node-less ZGP device with key `1` leaves it in `Init`, not `Dead` — the
original claim places the Green Power check on the wrong event. -/
theorem C6_counterexample :
    (1 : Nat) &&& zgpMask = 0 ∧
    envEmpty.coreNode 1 = none ∧
    (DEV_InitStateHandler envEmpty {} (mkEnter .L0)
      { deviceKey := 1, s0 := some .init }).st.s0 = some .init := by decide

/-- C7 (amended): the coordinator check is gated on the dresden
elektronik MAC prefix `0x00212E0000000000`: for a key carrying that
prefix whose core node has network address `0x0000`, delivering the
initial `StateEnter` parks the device in `Dead`, and no ZDP request is
issued on that step or ever after.  For keys without the prefix the check
does not run (see the counterexample). -/
theorem C7_spec (env : Env) (key : Nat) (c : Choice) (n : ZNode)
    (l : List StepInput)
    (hmask : key &&& coordMask = coordMask)
    (hnode : env.coreNode key = some n) (hnwk : n.nwk = 0) :
    (step env (.deliver c) (initialConfig key)).dev.s0 = some .dead ∧
    zdpCount env (initialConfig key) (StepInput.deliver c :: l) = 0 := by
  have hstepFull : stepFull env (.deliver c) (initialConfig key) =
      (⟨(handleEvent env c (mkEnter .L0) .L0 (initialConfig key).dev).st,
        [] ++ (handleEvent env c (mkEnter .L0) .L0 (initialConfig key).dev).out⟩,
       (handleEvent env c (mkEnter .L0) .L0 (initialConfig key).dev).zdp) := rfl
  have hhe : handleEvent env c (mkEnter .L0) .L0 (initialConfig key).dev =
      DEV_InitStateHandler env c (mkEnter .L0) (initialConfig key).dev := by
    rw [handleEvent_se_slot env c (mkEnter .L0) (initialConfig key).dev .L0
      .init (Or.inl rfl) rfl rfl]
    rfl
  obtain ⟨d0, d1, d2, dz⟩ := init_enter_coordinator env c (mkEnter .L0)
    (initialConfig key).dev n rfl rfl hmask hnode hnwk
  have hdead : DeadCfg (step env (.deliver c) (initialConfig key)) := by
    show DeadCfg (stepFull env (.deliver c) (initialConfig key)).1
    rw [hstepFull, hhe]
    exact ⟨d0, d1, d2⟩
  refine ⟨?_, ?_⟩
  · show (stepFull env (.deliver c) (initialConfig key)).1.dev.s0 =
      some .dead
    rw [hstepFull, hhe]
    exact d0
  · show (stepFull env (.deliver c) (initialConfig key)).2 +
      zdpCount env (step env (.deliver c) (initialConfig key)) l = 0
    rw [zdpCount_dead env _ hdead l]
    rw [hstepFull, hhe, dz]

/-- C7 witness: `k2` with the coordinator node dies on the first
delivery, with a ZDP count of zero. -/
theorem C7_witness :
    (step envCoord (.deliver {}) (initialConfig k2)).dev.s0 = some .dead ∧
    zdpCount envCoord (initialConfig k2) [.deliver {}] = 0 :=
  C7_spec envCoord k2 {} nodeC [] (by decide) (by decide) rfl

/-- C7 counterexample: key `k1` lacks the dresden elektronik prefix, so
even though its backing node has network address `0x0000`, delivering
`StateEnter` leaves the device in `Init` instead of `Dead` — the
coordinator check is never reached. -/
theorem C7_counterexample :
    envCoord0.coreNode k1 = some nodeC ∧ nodeC.nwk = 0 ∧
    (step envCoord0 (.deliver {}) (initialConfig k1)).dev.s0 =
      some .init := by decide

/-- C8: `DevicePrivate::setState` is a strict no-op — same state, no
`StateLeave` effect, no emitted event — whenever the handler already
installed at the level equals the new one. -/
theorem C8_spec (s : DeviceState) (h : Option Handler) (lvl : Lvl)
    (heq : getSlot s lvl = h) : setState s h lvl = (s, []) := by
  unfold setState
  rw [if_pos heq]

/-- C8 witness: re-installing `Init` at level 0 of the fresh device. -/
theorem C8_witness :
    setState (initialConfig k1).dev (some .init) .L0 =
      ((initialConfig k1).dev, []) :=
  C8_spec (initialConfig k1).dev (some .init) .L0 rfl

/-- C9: in `GetDeviceDescription`, `DDFInitResponse` with `num = 1` moves
the top level to `Idle`, any other `num` moves it to `Dead`, and every
other event leaves the top level unchanged. -/
theorem C9_spec (e : Event) (s : DeviceState)
    (hs0 : s.s0 = some .getDeviceDescription) :
    (e.what = .ddfInitResponse → e.num = 1 →
      (DEV_GetDeviceDescriptionHandler e s).st.s0 = some .idle) ∧
    (e.what = .ddfInitResponse → e.num ≠ 1 →
      (DEV_GetDeviceDescriptionHandler e s).st.s0 = some .dead) ∧
    (e.what ≠ .ddfInitResponse →
      (DEV_GetDeviceDescriptionHandler e s).st.s0 = s.s0) := by
  have hd0 : Handler.getDeviceDescription ≠ .idle ∧
      Handler.getDeviceDescription ≠ .pollNext ∧
      Handler.getDeviceDescription ≠ .pollBusy := by
    refine ⟨?_, ?_, ?_⟩ <;> intro hh <;> cases hh
  refine ⟨?_, ?_, ?_⟩
  · intro hresp hone
    have hnse : ¬e.what = .stateEnter := by
      rw [hresp]
      decide
    unfold DEV_GetDeviceDescriptionHandler
    rw [if_neg hnse, if_pos hresp, if_pos hone]
    exact (toState_L0_plain s .getDeviceDescription .idle [] 0 hs0 hd0).1
  · intro hresp hone
    have hnse : ¬e.what = .stateEnter := by
      rw [hresp]
      decide
    unfold DEV_GetDeviceDescriptionHandler
    rw [if_neg hnse, if_pos hresp, if_neg hone]
    exact (toState_L0_plain s .getDeviceDescription .dead [] 0 hs0 hd0).1
  · intro hresp
    by_cases hse : e.what = .stateEnter
    · unfold DEV_GetDeviceDescriptionHandler
      rw [if_pos hse]
    · unfold DEV_GetDeviceDescriptionHandler
      rw [if_neg hse, if_neg hresp]

/-- C9 witness: both `DDFInitResponse` outcomes at `sGetDDF`. -/
theorem C9_witness :
    (DEV_GetDeviceDescriptionHandler { what := .ddfInitResponse, num := 1 }
      sGetDDF).st.s0 = some .idle ∧
    (DEV_GetDeviceDescriptionHandler { what := .ddfInitResponse, num := 2 }
      sGetDDF).st.s0 = some .dead :=
  ⟨(C9_spec { what := .ddfInitResponse, num := 1 } sGetDDF rfl).1 rfl rfl,
   (C9_spec { what := .ddfInitResponse, num := 2 } sGetDDF rfl).2.1 rfl
     (by decide)⟩

/-- C10: `DEV_RemoveDevice` returns `false` for every registry and key,
whether or not a device was erased. -/
theorem C10_spec (devices : List Nat) (key : Nat) :
    (DEV_RemoveDevice devices key).2 = false := rfl

end DeconzDevice
